import Mathlib

/-!
Verification of the backup lifecycle manager in `backup.py` against its
natural-language specification.

The embedding models the backup root directory as a one-level-deep (with
nesting where needed) association list of named entries, and translates the
Python functions of `backup.py` into Lean functions over that state.
Python exceptions are modelled by the `PyErr` type, whose constructors are
named after the Python exception classes actually raised.
-/

/-- Python exception classes that the code in `backup.py` can raise.
Each constructor corresponds to a concrete Python exception class. -/
inductive PyErr : Type where
  | fileNotFound   -- FileNotFoundError
  | notADirectory  -- NotADirectoryError
  | isADirectory   -- IsADirectoryError (copyfile with a directory source)
  | fileExists     -- FileExistsError (makedirs target exists as a file)
  | valueError     -- ValueError
  | attributeError -- AttributeError
  | typeError      -- TypeError
  | nameError      -- NameError
deriving DecidableEq, Repr

/-- The distinct raise sites of `BackupItem.check_errors` (backup.py lines
161-194).  Each constructor corresponds to one `raise` statement with its own
message; `pyClass` below gives the Python exception class of each site. -/
inductive CheckErr : Type where
  | attrBackupPath    -- line 165: `cls.BACKUP_PATH` does not exist (the class
                      -- attribute is `backup_path`), so the relative-path
                      -- branch raises AttributeError
  | notFound          -- line 169: path does not exist -> FileNotFoundError
  | notADirectory     -- line 174: path is not a directory -> NotADirectoryError
  | malformedPrefix   -- line 179: name does not start with 'Backup_' -> ValueError
  | malformedDatetime -- line 184: datetime part fails strptime -> ValueError
  | missingRequired   -- line 190: 'Cefor.db' absent -> FileNotFoundError
deriving DecidableEq, Repr

/-- The Python exception class raised at each `check_errors` raise site. -/
def CheckErr.pyClass : CheckErr → PyErr
  | .attrBackupPath => .attributeError
  | .notFound => .fileNotFound
  | .notADirectory => .notADirectory
  | .malformedPrefix => .valueError
  | .malformedDatetime => .valueError
  | .missingRequired => .fileNotFound

/-- A name (file or directory name, or file content) is a list of characters. -/
abbrev Name := List Char

/-- An entry of a directory: a plain file with its content, or a
subdirectory with its own named children. -/
inductive Entry : Type where
  | file : Name → Entry
  | dir : List (Name × Entry) → Entry

instance : Inhabited Entry := ⟨Entry.dir []⟩

/-- The state of the backup root directory: its children in listing order.
Real directories cannot hold two children of the same name, so the
association list is keyed by unique names. -/
structure RootState : Type where
  entries : List (Name × Entry)

/-- Look up the entry of name `k` (first occurrence). -/
def lookupE : List (Name × Entry) → Name → Option Entry
  | [], _ => none
  | (a, b) :: t, k => if a = k then some b else lookupE t k

/-- Set the entry of name `k` to `v`: replace the existing entry in place,
or append a new one (mirrors writing a file / creating a directory). -/
def setE : List (Name × Entry) → Name → Entry → List (Name × Entry)
  | [], k, v => [(k, v)]
  | (a, b) :: t, k, v => if a = k then (k, v) :: t else (a, b) :: setE t k v

/-- Remove the entry of name `k` (directories hold at most one entry per
name, so this removes it entirely). -/
def eraseE : List (Name × Entry) → Name → List (Name × Entry)
  | [], _ => []
  | (a, b) :: t, k => if a = k then eraseE t k else (a, b) :: eraseE t k

theorem lookupE_setE_self (l : List (Name × Entry)) (k : Name) (v : Entry) :
    lookupE (setE l k v) k = some v := by
  induction l with
  | nil => simp [setE, lookupE]
  | cons p t ih =>
    obtain ⟨a, b⟩ := p
    by_cases h : a = k <;> simp [setE, lookupE, h, ih]

theorem lookupE_setE_ne (l : List (Name × Entry)) (k k' : Name) (v : Entry)
    (h : k' ≠ k) : lookupE (setE l k v) k' = lookupE l k' := by
  induction l with
  | nil =>
    have hk : ¬ k = k' := fun hk => h hk.symm
    simp [setE, lookupE, hk]
  | cons p t ih =>
    obtain ⟨a, b⟩ := p
    by_cases ha : a = k
    · subst ha
      have hk : ¬ a = k' := fun hk => h hk.symm
      simp [setE, lookupE, hk]
    · by_cases ha' : a = k' <;> simp [setE, lookupE, ha, ha', ih, h]

theorem lookupE_eraseE_self (l : List (Name × Entry)) (k : Name) :
    lookupE (eraseE l k) k = none := by
  induction l with
  | nil => simp [eraseE, lookupE]
  | cons p t ih =>
    obtain ⟨a, b⟩ := p
    by_cases h : a = k <;> simp [eraseE, lookupE, h, ih]

theorem lookupE_eraseE_ne (l : List (Name × Entry)) (k k' : Name)
    (h : k' ≠ k) : lookupE (eraseE l k) k' = lookupE l k' := by
  induction l with
  | nil => simp [eraseE, lookupE]
  | cons p t ih =>
    obtain ⟨a, b⟩ := p
    by_cases ha : a = k
    · subst ha
      have hk : ¬ a = k' := fun hk => h hk.symm
      simp [eraseE, lookupE, hk, ih]
    · by_cases ha' : a = k' <;> simp [eraseE, lookupE, ha, ha', ih, h]

/-!
### Python `datetime.strptime` with format `'%Y%m%d_%H%M%S'`

`validate_datetime_format` (backup.py lines 11-17) calls
`datetime.strptime(date_string, '%Y%m%d_%H%M%S')` and returns `True` iff no
`ValueError` is raised.  CPython's `_strptime` compiles the format into the
regular expression

  `(?P<Y>\d\d\d\d)(?P<m>1[0-2]|0[1-9]|[1-9])(?P<d>3[01]|[12]\d|0[1-9]|[1-9])`
  `_(?P<H>2[0-3]|[0-1]\d|\d)(?P<M>[0-5]\d|\d)(?P<S>6[0-1]|[0-5]\d|\d)`,

matches it at the start of the string with ordinary backtracking (alternatives
tried left to right, later pattern parts failing cause earlier alternatives to
be retried), raises `ValueError` if the match does not consume the whole
string, and finally constructs `datetime(Y, m, d, H, M, S)`, which raises
`ValueError` for an invalid calendar date, a year 0, or a second above 59.
The model below reproduces exactly this: an alternative-list matcher in
continuation style (the continuation failing makes the matcher try the next
alternative, i.e. backtracking), the whole-string check applied only to the
first match found in preference order, then the calendar validity check.
-/

/-- ASCII decimal digit test (`\d` for the strings at hand). -/
def isDig (c : Char) : Bool := decide (48 ≤ c.toNat ∧ c.toNat ≤ 57)

/-- Character equality against a fixed code point. -/
def chEq (n : Nat) (c : Char) : Bool := decide (c.toNat = n)

/-- Character range test by code points. -/
def chRange (lo hi : Nat) (c : Char) : Bool :=
  decide (lo ≤ c.toNat ∧ c.toNat ≤ hi)

/-- Numeric value of an ASCII digit. -/
def digVal (c : Char) : Nat := c.toNat - 48

/-- One regex alternative consuming two characters constrained by `p1`, `p2`;
its captured value is the two-digit number. -/
def alt2 (p1 p2 : Char → Bool) : List Char → Option (Nat × List Char)
  | a :: b :: r => if p1 a && p2 b then some (10 * digVal a + digVal b, r) else none
  | _ => none

/-- One regex alternative consuming a single character constrained by `p`. -/
def alt1 (p : Char → Bool) : List Char → Option (Nat × List Char)
  | a :: r => if p a then some (digVal a, r) else none
  | _ => none

/-- Run a list of alternatives in preference order with continuation `k`:
if an alternative matches but `k` fails on the remainder, the next
alternative is tried — exactly the backtracking of the regex engine. -/
def runAlts {α : Type} :
    List (List Char → Option (Nat × List Char)) → List Char →
    (Nat → List Char → Option α) → Option α
  | [], _, _ => none
  | a :: rest, s, k =>
    match a s with
    | some (v, s') =>
      match k v s' with
      | some x => some x
      | none => runAlts rest s k
    | none => runAlts rest s k

/-- A literal character in the pattern. -/
def matchLit {α : Type} (c : Char) : List Char → (List Char → Option α) → Option α
  | a :: r, k => if a = c then k r else none
  | [], _ => none

/-- `(?P<Y>\d\d\d\d)` — exactly four digits. -/
def altY : List Char → Option (Nat × List Char)
  | a :: b :: c :: d :: r =>
    if isDig a && isDig b && isDig c && isDig d then
      some (1000 * digVal a + 100 * digVal b + 10 * digVal c + digVal d, r)
    else none
  | _ => none

/-- `1[0-2]|0[1-9]|[1-9]` — the `%m` alternatives. -/
def altsM : List (List Char → Option (Nat × List Char)) :=
  [alt2 (chEq 49) (chRange 48 50), alt2 (chEq 48) (chRange 49 57),
   alt1 (chRange 49 57)]

/-- `3[01]|[12]\d|0[1-9]|[1-9]` — the `%d` alternatives. -/
def altsD : List (List Char → Option (Nat × List Char)) :=
  [alt2 (chEq 51) (chRange 48 49), alt2 (chRange 49 50) isDig,
   alt2 (chEq 48) (chRange 49 57), alt1 (chRange 49 57)]

/-- `2[0-3]|[0-1]\d|\d` — the `%H` alternatives. -/
def altsH : List (List Char → Option (Nat × List Char)) :=
  [alt2 (chEq 50) (chRange 48 51), alt2 (chRange 48 49) isDig, alt1 isDig]

/-- `[0-5]\d|\d` — the `%M` alternatives. -/
def altsMin : List (List Char → Option (Nat × List Char)) :=
  [alt2 (chRange 48 53) isDig, alt1 isDig]

/-- `6[0-1]|[0-5]\d|\d` — the `%S` alternatives. -/
def altsS : List (List Char → Option (Nat × List Char)) :=
  [alt2 (chEq 54) (chRange 48 49), alt2 (chRange 48 53) isDig, alt1 isDig]

/-- The parsed fields of the template, in order Y, m, d, H, M, S. -/
structure Stamp : Type where
  year : Nat
  month : Nat
  day : Nat
  hour : Nat
  minute : Nat
  second : Nat
deriving DecidableEq, Repr

/-- Match the compiled pattern at the start of the string, returning the
captured fields of the first match in preference order together with the
unconsumed remainder (the pattern itself has no end anchor). -/
def matchTemplate (s : List Char) : Option (Stamp × List Char) :=
  match altY s with
  | none => none
  | some (y, s1) =>
    runAlts altsM s1 (fun mo s2 =>
      runAlts altsD s2 (fun d s3 =>
        matchLit '_' s3 (fun s4 =>
          runAlts altsH s4 (fun h s5 =>
            runAlts altsMin s5 (fun mi s6 =>
              runAlts altsS s6 (fun sec s7 =>
                some (⟨y, mo, d, h, mi, sec⟩, s7)))))))

/-- Gregorian leap year, as `datetime` computes it. -/
def leapYear (y : Nat) : Bool :=
  y % 4 == 0 && (y % 100 != 0 || y % 400 == 0)

/-- Length of a month, as `datetime` validates the day against. -/
def daysInMonth (y mo : Nat) : Nat :=
  if mo = 2 then (if leapYear y then 29 else 28)
  else if mo = 4 ∨ mo = 6 ∨ mo = 9 ∨ mo = 11 then 30
  else 31

/-- The validity check done by constructing `datetime(Y, m, d, H, M, S)`:
year in 1..9999, valid calendar date, hour/minute ≤ their bounds, and
second ≤ 59 (the regex admits leap seconds 60 and 61, the constructor
rejects them). -/
def stampOk (t : Stamp) : Bool :=
  decide (1 ≤ t.year ∧ t.year ≤ 9999 ∧ 1 ≤ t.month ∧ t.month ≤ 12 ∧
    1 ≤ t.day ∧ t.day ≤ daysInMonth t.year t.month ∧
    t.hour ≤ 23 ∧ t.minute ≤ 59 ∧ t.second ≤ 59)

/-- `datetime.strptime(s, '%Y%m%d_%H%M%S')` as a partial function: the
parsed fields when no `ValueError` is raised, `none` otherwise. -/
def strptimeYmdHMS (s : List Char) : Option Stamp :=
  match matchTemplate s with
  | some (t, rest) => if rest = [] ∧ stampOk t then some t else none
  | none => none

/-- `validate_datetime_format` (backup.py lines 11-17). -/
def validate_datetime_format (s : List Char) : Bool :=
  (strptimeYmdHMS s).isSome

example : validate_datetime_format "20230101_120000".toList = true := by decide
example : validate_datetime_format "2020101_120000".toList = true := by decide
example : validate_datetime_format "20230101_12000".toList = true := by decide
example : validate_datetime_format "20230230_120000".toList = false := by decide
example : validate_datetime_format "20230101-120000".toList = false := by decide
example : validate_datetime_format "20230101_1200000".toList = false := by decide
example : validate_datetime_format "00000101_120000".toList = false := by decide
example : validate_datetime_format "20240229_120000".toList = true := by decide
example : validate_datetime_format "20230229_120000".toList = false := by decide

/-!
### Names and `check_errors`
-/

/-- The mandatory primary data file name. -/
def ceforDb : Name := "Cefor.db".toList

/-- First auxiliary file name. -/
def ceforShm : Name := "Cefor.db-shm".toList

/-- Second auxiliary file name. -/
def ceforWal : Name := "Cefor.db-wal".toList

/-- The three live database file names, in the fixed order the code uses. -/
def liveFiles : List Name := [ceforDb, ceforShm, ceforWal]

/-- The quarantine directory name used by `do_restore`. -/
def safeName : Name := "safe".toList

/-- The naming-template marker `'Backup_'`. -/
def backupMarker : Name := "Backup_".toList

/-- `name.startswith('Backup_')` (backup.py line 178). -/
def startsWithBackup (name : Name) : Bool := backupMarker.isPrefixOf name

/-- Remainder after the first occurrence of `'Backup_'` in `s`, scanning left
to right, or `none` when it does not occur. -/
def restAfterMarker : List Char → Option (List Char)
  | [] => none
  | c :: t =>
    if backupMarker.isPrefixOf (c :: t) then some ((c :: t).drop 7)
    else restAfterMarker t

/-- Iterate `restAfterMarker` until the marker no longer occurs.  Each
occurrence consumes at least the seven marker characters, so `s.length`
steps of fuel always suffice. -/
def lastPieceFuel : Nat → List Char → List Char
  | 0, s => s
  | Nat.succ n, s =>
    match restAfterMarker s with
    | some r => lastPieceFuel n r
    | none => s

/-- `s.split('Backup_')[-1]` (backup.py line 183): the final piece of the
non-overlapping left-to-right split, i.e. the suffix after the last
occurrence found by repeatedly skipping past the first occurrence. -/
def lastPiece (s : List Char) : List Char := lastPieceFuel s.length s

example : lastPiece "Backup_20230101_120000".toList = "20230101_120000".toList := rfl
example : lastPiece "Backup_Backup_x".toList = "x".toList := rfl
example : lastPiece "aBackup_bBackup_c".toList = "c".toList := rfl

/-- `BackupItem.check_errors` (backup.py lines 133-194) on a path interpreted
against the backup root: `isAbs` tells whether the given path string was
absolute.  For a relative path, line 165 evaluates `cls.BACKUP_PATH`, an
attribute the class does not define (its attribute is the lower-case
`backup_path`), so an `AttributeError` is raised before any check runs.
For an absolute path (modelled as the root child of that name), the checks
run in source order: existence, directory-ness, the `'Backup_'` name marker,
the strptime check on `name.split('Backup_')[-1]`, and the presence of the
mandatory `'Cefor.db'` inside the directory. -/
def check_errors (s : RootState) (isAbs : Bool) (name : Name) :
    Except CheckErr Unit :=
  if isAbs = false then .error .attrBackupPath
  else
    match lookupE s.entries name with
    | none => .error .notFound
    | some (.file _) => .error .notADirectory
    | some (.dir children) =>
      if startsWithBackup name = false then .error .malformedPrefix
      else if validate_datetime_format (lastPiece name) = false then
        .error .malformedDatetime
      else if (lookupE children ceforDb).isNone then .error .missingRequired
      else .ok ()

/-- `BackupItem.__init__` (backup.py lines 28-39).  Its first statement is
`self.check_errors(path, raise_errors=True)`; `check_errors` is a classmethod
whose signature is `check_errors(cls, backup_folder)` and accepts no
`raise_errors` parameter, so the call itself raises
`TypeError: check_errors() got an unexpected keyword argument 'raise_errors'`
before any validation runs, for every path whatsoever.  (`TypeError` is not
caught by the `except ValueError` handler of lines 33-34.) -/
def BackupItem_init (_ : RootState) (_ : Bool) (_ : Name) : Except PyErr Unit :=
  .error .typeError

/-- `BackupAgent.list` (backup.py lines 205-234).  Its second statement
evaluates `self.validate_backup_path`, an attribute defined nowhere on
`BackupAgent` (the class defines `qqvalidate_backup`), so every call raises
`AttributeError` before any directory is examined. -/
def BackupAgent_list (_ : RootState) : Except PyErr (List (Name × Entry)) :=
  .error .attributeError

/-- `name.endswith('.db')`. -/
def endsWithDb (name : Name) : Bool := (".db".toList).isSuffixOf name

/-- The loop of `BackupManager.load_backups` (backup.py lines 279-284): it
walks `os.listdir(BACKUP_PATH)` in listing order and, for the first name
ending in `'.db'`, calls `get_backup_date(file)` — a function defined nowhere
in the repository, so that call raises `NameError`.  Names not ending in
`'.db'` (in particular every `Backup_...` snapshot directory) are skipped
outright. -/
def load_backups_loop : List (Name × Entry) → Except PyErr (List (Nat × Name))
  | [] => .ok []
  | (n, _) :: t => if endsWithDb n then .error .nameError else load_backups_loop t

/-- `BackupManager.load_backups` (backup.py lines 276-284): starts from an
empty dict and runs the loop above over the backup root's listing. -/
def load_backups (s : RootState) : Except PyErr (List (Nat × Name)) :=
  load_backups_loop s.entries

/-- Modelled from the spec: the exact canonical `YYYYMMDD_HHMMSS` template
(section 4.1: "the remainder does not parse as that exact template (no
partial matches, no alternate separators)") — fifteen characters, all digits
except the underscore at index 8, whose fields form a valid timestamp.
Used only to compare the spec's wording against the code's behavior. -/
def specExactTemplate (s : List Char) : Bool :=
  match s with
  | [y1, y2, y3, y4, m1, m2, d1, d2, u, h1, h2, mi1, mi2, s1, s2] =>
    isDig y1 && isDig y2 && isDig y3 && isDig y4 &&
    isDig m1 && isDig m2 && isDig d1 && isDig d2 &&
    (u = '_') &&
    isDig h1 && isDig h2 && isDig mi1 && isDig mi2 && isDig s1 && isDig s2 &&
    stampOk ⟨1000 * digVal y1 + 100 * digVal y2 + 10 * digVal y3 + digVal y4,
             10 * digVal m1 + digVal m2, 10 * digVal d1 + digVal d2,
             10 * digVal h1 + digVal h2, 10 * digVal mi1 + digVal mi2,
             10 * digVal s1 + digVal s2⟩
  | _ => false

example :
    check_errors ⟨[("Backup_20230101_120000".toList,
      .dir [(ceforDb, .file "x".toList)])]⟩ true
      "Backup_20230101_120000".toList = .ok () := rfl
example :
    check_errors ⟨[("Backup_2020101_120000".toList,
      .dir [(ceforDb, .file "x".toList)])]⟩ true
      "Backup_2020101_120000".toList = .ok () := rfl
example : specExactTemplate "2020101_120000".toList = false := by decide
example : specExactTemplate "20230101_120000".toList = true := by decide

/-!
### `BackupManager.do_backup` (backup.py lines 306-318)

backup.py imports `datetime` twice: `import datetime` (line 4) and
`from datetime import datetime` (line 6).  The second import rebinds the
module name to the `datetime` class, so the very first statement of
`do_backup`, `datetime.datetime.now()` (line 308), looks up the attribute
`datetime` on the `datetime` class and raises `AttributeError` — the class
has no such attribute.  Every call to `do_backup` therefore fails before
touching the file system.
-/

/-- `BackupManager.do_backup`: always raises `AttributeError` at line 308
(see the section comment above); no directory is created and no file is
copied. -/
def do_backup (_ : RootState) : Except PyErr RootState :=
  .error .attributeError

/-- Copy the live file `f` from the backup root into the snapshot directory
named `dirName` (one iteration of the loop at backup.py lines 312-314):
`shutil.copyfile(BACKUP_PATH/f, dirName/f)` overwrites any existing
destination file, raises `FileNotFoundError` when the source is absent and
`IsADirectoryError`-style errors when the source is a directory. -/
def copyLiveInto (s : RootState) (dirName f : Name) : Except PyErr RootState :=
  match lookupE s.entries f with
  | none => .error .fileNotFound
  | some (.dir _) => .error .isADirectory
  | some (.file c) =>
    match lookupE s.entries dirName with
    | some (.dir children) =>
      .ok ⟨setE s.entries dirName (.dir (setE children f (.file c)))⟩
    | _ => .error .fileNotFound

/-- `do_backup` with the line-308/317 import bug factored out (i.e. reading
`datetime.datetime` as the `datetime` class, the only reading under which
the function runs at all): `dateName` stands for
`datetime.now().strftime('%Y-%m-%d')` — note the day-resolution, dash-
separated name, with no `'Backup_'` marker.  Lines 310-316:
`os.makedirs(backup_folder, exist_ok=True)` silently reuses an existing
directory of that name (raising `FileExistsError` only when the name exists
as a plain file), then the three live files are copied in, overwriting any
files already inside, and `backup.log` is written with the comment.  There
is no collision check of any kind. -/
def do_backup_sans_import_bug (dateName comment : Name) (s : RootState) :
    Except PyErr RootState :=
  match lookupE s.entries dateName with
  | some (.file _) => .error .fileExists
  | some (.dir _) | none =>
    let s0 : RootState :=
      match lookupE s.entries dateName with
      | some (.dir _) => s
      | _ => ⟨s.entries ++ [(dateName, .dir [])]⟩
    match copyLiveInto s0 dateName ceforDb with
    | .error e => .error e
    | .ok s1 =>
      match copyLiveInto s1 dateName ceforShm with
      | .error e => .error e
      | .ok s2 =>
        match copyLiveInto s2 dateName ceforWal with
        | .error e => .error e
        | .ok s3 =>
          match lookupE s3.entries dateName with
          | some (.dir children) =>
            .ok ⟨setE s3.entries dateName
              (.dir (setE children "backup.log".toList (.file comment)))⟩
          | _ => .error .fileNotFound

/-!
### `BackupManager.do_restore` (backup.py lines 324-361)
-/

/-- `os.makedirs(safe_folder, exist_ok=True)` (backup.py line 338): create
the quarantine directory if absent; raise `FileExistsError` when the name
exists as a plain file. -/
def ensureSafe (s : RootState) : Except PyErr RootState :=
  match lookupE s.entries safeName with
  | some (.dir _) => .ok s
  | some (.file _) => .error .fileExists
  | none => .ok ⟨s.entries ++ [(safeName, .dir [])]⟩

/-- One iteration of the staging loop (backup.py lines 339-343):
`if os.path.exists(BACKUP_PATH/f): shutil.move(BACKUP_PATH/f, safe/f)`.
`shutil.move` places the source entry at `safe/f` and removes it from the
live location; when `safe/f` already exists as a directory, the move goes
*into* that directory (`shutil.move` computes `real_dst` by joining the
source's basename); moving a directory onto an existing plain file fails. -/
def moveOne (s : RootState) (f : Name) : Except PyErr RootState :=
  match lookupE s.entries f with
  | none => .ok s
  | some e =>
    match lookupE s.entries safeName with
    | some (.dir children) =>
      match e, lookupE children f with
      | _, some (.dir sub) =>
        .ok ⟨setE (eraseE s.entries f) safeName
          (.dir (setE children f (.dir (setE sub f e))))⟩
      | .dir _, some (.file _) => .error .fileExists
      | _, _ =>
        .ok ⟨setE (eraseE s.entries f) safeName (.dir (setE children f e))⟩
    | _ => .error .fileNotFound

/-- The staging step of `do_restore` (backup.py lines 336-343): create the
quarantine directory, then move each of the three live files that exists
into it, in the fixed order primary, shm, wal. -/
def stage (s : RootState) : Except PyErr RootState :=
  match ensureSafe s with
  | .error e => .error e
  | .ok s0 =>
    match moveOne s0 ceforDb with
    | .error e => .error e
    | .ok s1 =>
      match moveOne s1 ceforShm with
      | .error e => .error e
      | .ok s2 => moveOne s2 ceforWal

/-- One iteration of the copy loop (backup.py lines 347-355): if the live
destination `BACKUP_PATH/f` does not exist, `shutil.copyfile(folder/f,
BACKUP_PATH/f)` — raising `FileNotFoundError` when the snapshot lacks `f`
(or the folder itself is missing) and an `IsADirectoryError`-style error
when the snapshot's `f` is a directory; otherwise the copy is skipped and
an error line naming the destination is printed (`some f` in the result). -/
def copyOne (folder : Name) (s : RootState) (f : Name) :
    Except PyErr (RootState × Option Name) :=
  match lookupE s.entries f with
  | some _ => .ok (s, some f)
  | none =>
    match lookupE s.entries folder with
    | some (.dir children) =>
      match lookupE children f with
      | some (.file c) => .ok (⟨setE s.entries f (.file c)⟩, none)
      | some (.dir _) => .error .isADirectory
      | none => .error .fileNotFound
    | some (.file _) => .error .notADirectory
    | none => .error .fileNotFound

/-- The copy step of `do_restore` (backup.py lines 345-356) run from an
arbitrary file-system state: the three fixed file names are processed in
order; the result carries the final state and the list of file names whose
copy was skipped with a printed error. -/
def restoreCopyPhase (s : RootState) (folder : Name) :
    Except PyErr (RootState × List Name) :=
  match copyOne folder s ceforDb with
  | .error e => .error e
  | .ok (s1, r1) =>
    match copyOne folder s1 ceforShm with
    | .error e => .error e
    | .ok (s2, r2) =>
      match copyOne folder s2 ceforWal with
      | .error e => .error e
      | .ok (s3, r3) => .ok (s3, r1.toList ++ r2.toList ++ r3.toList)

/-- The copy step followed by line 357: `print("Database restored
successfully.")` is executed unconditionally once the loop finishes, so the
success flag of the result is `true` whenever no exception was raised —
regardless of how many files were skipped. -/
def restoreCopyReport (s : RootState) (folder : Name) :
    Except PyErr (RootState × List Name × Bool) :=
  match restoreCopyPhase s folder with
  | .ok (s', skipped) => .ok (s', skipped, true)
  | .error e => .error e

/-!
### Listing, ordinals, delete (backup.py lines 286-304, 363-373, 375-402)

`self.backups` is a dict mapping a timestamp key to a folder string; the
timestamp keys are totally ordered and are modelled as natural numbers.
`display_backups` iterates `sorted(self.backups.items())` assigning
`backup_number` from 1 upward; with distinct keys, sorting the pairs is
sorting by key.  Python's `sorted` is modelled by `List.insertionSort`
(any comparison sort agrees on lists with pairwise-distinct keys).
-/

/-- Ordering of catalog items by identifier. -/
def keyLe (p q : Nat × Name) : Prop := p.1 ≤ q.1

instance : DecidableRel keyLe := fun p q => Nat.decLe p.1 q.1

instance : IsTotal (Nat × Name) keyLe :=
  ⟨fun p q => Nat.le_total p.1 q.1⟩

instance : IsTrans (Nat × Name) keyLe :=
  ⟨fun _ _ _ h1 h2 => Nat.le_trans h1 h2⟩

/-- `sorted(self.backups.items())` for a dict with distinct keys. -/
def sortedItems (b : List (Nat × Name)) : List (Nat × Name) :=
  List.insertionSort keyLe b

/-- `sorted(self.backups.keys())` (backup.py line 331 / 417). -/
def sortedKeys (b : List (Nat × Name)) : List Nat :=
  List.insertionSort (· ≤ ·) (b.map Prod.fst)

/-- Assign consecutive numbers starting at `n` (the `backup_number`
counter of `display_backups`, starting at 1). -/
def numberFrom {α : Type} : Nat → List α → List (Nat × α)
  | _, [] => []
  | n, a :: t => (n, a) :: numberFrom (n + 1) t

/-- The rows of `BackupManager.display_backups` (backup.py lines 286-304):
the catalog items in ascending identifier order, numbered from 1.  (The
printing of name, date and comment is presentation only and elided.) -/
def displayRows (b : List (Nat × Name)) : List (Nat × (Nat × Name)) :=
  numberFrom 1 (sortedItems b)

/-- Resolution of an ordinal in `do_restore` / `do_delete` (backup.py lines
330-332, 416-418): valid iff `1 <= n <= len(self.backups)`, in which case
the key is `sorted(self.backups.keys())[n - 1]`. -/
def byOrdinal (b : List (Nat × Name)) (n : Nat) : Option Nat :=
  if 1 ≤ n ∧ n ≤ b.length then (sortedKeys b)[n - 1]? else none

/-- `del self.backups[k]` (backup.py line 428). -/
def eraseKey (b : List (Nat × Name)) (k : Nat) : List (Nat × Name) :=
  b.filter (fun p => p.1 ≠ k)

/-!
### `BackupManager.do_delete`, the `'*'` (delete all) branch
(backup.py lines 381-402)
-/

/-- Result of the delete-all branch.  A Python exception raised mid-way
leaves the mutations already performed in place, so the result carries the
final state together with the exception, if any. -/
structure DeleteAllRes : Type where
  backups : List (Nat × Name)
  fs : RootState
  raised : Option PyErr
  reported : List Name

/-- The report loop of lines 395-401: for each deleted folder name it calls
`os.listdir` on the folder's path *after* the wipe — raising
`FileNotFoundError` at the first folder, since `shutil.rmtree` just removed
it (or `NotADirectoryError` if the name somehow denotes a file). -/
def reportLoop (fs : RootState) : List Name → Option PyErr × List Name
  | [] => (none, [])
  | folder :: t =>
    match lookupE fs.entries folder with
    | some (.dir _) =>
      match reportLoop fs t with
      | (e, r) => (e, folder :: r)
    | some (.file _) => (some .notADirectory, [])
    | none => (some .fileNotFound, [])

/-- The `'*'` branch of `BackupManager.do_delete` (backup.py lines 381-402):
without confirmation nothing happens; with confirmation it snapshots
`list(self.backups.values())` (the folder *names*, not the identifier keys),
clears the dict, `shutil.rmtree`s the whole backup root, recreates it empty
(`os.mkdir`), and then runs the report loop above on the now-deleted
folders. -/
def do_delete_all (confirm : Bool) (b : List (Nat × Name)) (s : RootState) :
    DeleteAllRes :=
  if confirm then
    let deleted := b.map Prod.snd
    let fs' : RootState := ⟨[]⟩
    match reportLoop fs' deleted with
    | (e, rep) => ⟨[], fs', e, rep⟩
  else ⟨b, s, none, []⟩

/-!
### `BackupManager.parse_backup_numbers` (backup.py lines 363-373)
-/

/-- Python `str.strip()` whitespace (the ASCII whitespace characters). -/
def isSpaceCh (c : Char) : Bool :=
  c = ' ' ∨ c = '\t' ∨ c = '\n' ∨ c = '\x0b' ∨ c = '\x0c' ∨ c = '\r'

/-- `s.strip()`. -/
def pyStrip (s : List Char) : List Char :=
  ((s.dropWhile isSpaceCh).reverse.dropWhile isSpaceCh).reverse

/-- `s.isdigit()` for ASCII strings: nonempty and all digits. -/
def pyIsdigit (s : List Char) : Bool := !s.isEmpty && s.all isDig

/-- `int(s)` for a digit string. -/
def digitsToNat (s : List Char) : Nat :=
  s.foldl (fun a c => 10 * a + digVal c) 0

/-- `s.split('-')`. -/
def splitDash (s : List Char) : List (List Char) :=
  s.foldr
    (fun c acc =>
      if c = '-' then [] :: acc
      else
        match acc with
        | h :: t => (c :: h) :: t
        | [] => [[c]])
    [[]]

/-- `BackupManager.parse_backup_numbers` (backup.py lines 363-373): strip
the input; a pure digit string gives that single number; otherwise, if the
input contains `'-'`, it is split on `'-'` — `start, end = ...` unpacking
raises `ValueError` unless there are exactly two pieces — and when both
pieces are digit strings the result is `list(range(start, end + 1))`
(empty when `start > end`); in every other case the empty list. -/
def parse_backup_numbers (input : Name) : Except PyErr (List Nat) :=
  let t := pyStrip input
  if pyIsdigit t then .ok [digitsToNat t]
  else if t.contains '-' then
    match splitDash t with
    | [a, b] =>
      if pyIsdigit a && pyIsdigit b then
        .ok (List.range' (digitsToNat a) (digitsToNat b + 1 - digitsToNat a))
      else .ok []
    | _ => .error .valueError
  else .ok []

example : parse_backup_numbers "5".toList = .ok [5] := rfl
example : parse_backup_numbers " 12 ".toList = .ok [12] := rfl
example : parse_backup_numbers "3-5".toList = .ok [3, 4, 5] := rfl
example : parse_backup_numbers "5-3".toList = .ok [] := rfl
example : parse_backup_numbers "5-5".toList = .ok [5] := rfl
example : parse_backup_numbers "a-5".toList = .ok [] := rfl
example : parse_backup_numbers "-5".toList = .ok [] := rfl
example : parse_backup_numbers "abc".toList = .ok [] := rfl
example : parse_backup_numbers "1-2-3".toList = .error .valueError := rfl
example : parse_backup_numbers "".toList = .ok [] := rfl

/-!
### NameCodec (spec section 4.1)
-/

/-- Two-digit zero-padded decimal rendering. -/
def pad2 (n : Nat) : List Char :=
  [Char.ofNat (48 + n / 10), Char.ofNat (48 + n % 10)]

/-- Four-digit zero-padded decimal rendering. -/
def pad4 (n : Nat) : List Char :=
  [Char.ofNat (48 + n / 1000), Char.ofNat (48 + n / 100 % 10),
   Char.ofNat (48 + n / 10 % 10), Char.ofNat (48 + n % 10)]

/-- Modelled from the spec: `NameCodec.encode` is absent from the source
(`do_backup`, the only snapshot-creating code, crashes on its first line and
would name directories `'%Y-%m-%d'`), so the encoder is taken from the
spec's words: "formats the identifier as `Backup_YYYYMMDD_HHMMSS`" — the
marker followed by the zero-padded fields, `strftime('%Y%m%d_%H%M%S')`
style. -/
def encodeStamp (t : Stamp) : Name :=
  backupMarker ++ pad4 t.year ++ pad2 t.month ++ pad2 t.day ++ ['_'] ++
    pad2 t.hour ++ pad2 t.minute ++ pad2 t.second

/-- `NameCodec.decode`, embedded from the code's own name-checking path
(`check_errors` lines 178-185): require the `'Backup_'` marker, take
`name.split('Backup_')[-1]`, and parse it with
`datetime.strptime(..., '%Y%m%d_%H%M%S')`, yielding the parsed timestamp. -/
def decodeName (name : Name) : Option Stamp :=
  if startsWithBackup name then strptimeYmdHMS (lastPiece name) else none

example : decodeName "Backup_20230101_120000".toList =
    some ⟨2023, 1, 1, 12, 0, 0⟩ := rfl
example : decodeName (encodeStamp ⟨2023, 12, 31, 23, 59, 59⟩) =
    some ⟨2023, 12, 31, 23, 59, 59⟩ := rfl
example : decodeName (encodeStamp ⟨1, 1, 1, 0, 0, 0⟩) =
    some ⟨1, 1, 1, 0, 0, 0⟩ := rfl

/-!
### Claim theorems
-/

/-- Claim C1.  The claim says a directory appears in the catalog listing iff
`check_errors` validates it.  The code contradicts it: on a backup root whose
only child is a perfectly valid snapshot directory
(`Backup_20230101_120000` containing `Cefor.db`), validation returns Ok,
yet `BackupManager.load_backups` produces an *empty* catalog (it only
honors names ending in `'.db'` and the snapshot directory's name does not),
and `BackupAgent.list` raises `AttributeError` (`validate_backup_path` is
undefined).  Moreover on a root containing any name ending in `'.db'`,
`load_backups` raises `NameError` (`get_backup_date` is undefined). -/
theorem c1_valid_snapshot_missing_from_listing :
    check_errors ⟨[("Backup_20230101_120000".toList,
        .dir [(ceforDb, .file "data".toList)])]⟩ true
        "Backup_20230101_120000".toList = .ok ()
    ∧ load_backups ⟨[("Backup_20230101_120000".toList,
        .dir [(ceforDb, .file "data".toList)])]⟩ = .ok []
    ∧ BackupAgent_list ⟨[("Backup_20230101_120000".toList,
        .dir [(ceforDb, .file "data".toList)])]⟩ = .error .attributeError
    ∧ load_backups ⟨[("stray.db".toList, .file "x".toList)]⟩ =
        .error .nameError :=
  ⟨rfl, rfl, rfl, rfl⟩

/-- Claim C2.  The claim says `create` fails with `Collision` when a
directory for the current identifier exists and performs no copy.  The code
contradicts it: `do_backup` always raises `AttributeError` on its first
line; and even modulo that import bug, the directory name is day-resolution
`'%Y-%m-%d'`, `os.makedirs(..., exist_ok=True)` silently reuses the
existing directory, and `shutil.copyfile` overwrites its contents — here a
pre-existing `2023-01-01` snapshot with content `"old"` is silently
overwritten with the live `"new"` content, no collision error of any kind,
and the resulting directory does not even satisfy the catalog's naming
template. -/
theorem c2_no_collision_check :
    do_backup ⟨[("2023-01-01".toList, .dir [(ceforDb, .file "old".toList)]),
        (ceforDb, .file "new".toList), (ceforShm, .file "n2".toList),
        (ceforWal, .file "n3".toList)]⟩ = .error .attributeError
    ∧ do_backup_sans_import_bug "2023-01-01".toList "c".toList
        ⟨[("2023-01-01".toList, .dir [(ceforDb, .file "old".toList)]),
          (ceforDb, .file "new".toList), (ceforShm, .file "n2".toList),
          (ceforWal, .file "n3".toList)]⟩ =
      .ok ⟨[("2023-01-01".toList,
            .dir [(ceforDb, .file "new".toList), (ceforShm, .file "n2".toList),
                  (ceforWal, .file "n3".toList),
                  ("backup.log".toList, .file "c".toList)]),
          (ceforDb, .file "new".toList), (ceforShm, .file "n2".toList),
          (ceforWal, .file "n3".toList)]⟩
    ∧ check_errors ⟨[("2023-01-01".toList, .dir [(ceforDb, .file "old".toList)])]⟩
        true "2023-01-01".toList = .error .malformedPrefix :=
  ⟨rfl, rfl, rfl⟩

/-- Claim C6.  The claim says constructing a `BackupItem` succeeds exactly on
paths that validate Ok and otherwise fails with the validation error kind.
The code contradicts it: `__init__` calls
`self.check_errors(path, raise_errors=True)`, and `check_errors` accepts no
`raise_errors` parameter, so construction raises `TypeError` for *every*
path — including the valid snapshot below, for which validation returns Ok,
and the absent path, for which validation reports `notFound` while
construction still reports `TypeError`. -/
theorem c6_init_always_type_error :
    check_errors ⟨[("Backup_20230101_120000".toList,
        .dir [(ceforDb, .file "data".toList)])]⟩ true
        "Backup_20230101_120000".toList = .ok ()
    ∧ BackupItem_init ⟨[("Backup_20230101_120000".toList,
        .dir [(ceforDb, .file "data".toList)])]⟩ true
        "Backup_20230101_120000".toList = .error .typeError
    ∧ check_errors ⟨[("Backup_20230101_120000".toList,
        .dir [(ceforDb, .file "data".toList)])]⟩ true
        "Backup_20990101_120000".toList = .error .notFound
    ∧ BackupItem_init ⟨[("Backup_20230101_120000".toList,
        .dir [(ceforDb, .file "data".toList)])]⟩ true
        "Backup_20990101_120000".toList = .error .typeError
    ∧ (∀ (s : RootState) (isAbs : Bool) (name : Name),
        BackupItem_init s isAbs name = .error .typeError) :=
  ⟨rfl, rfl, rfl, rfl, fun _ _ _ => rfl⟩

/-- Claim C9.  Declining the confirmation indeed leaves catalog and root
unchanged (first conjunct, for every state).  But with confirmation the
code, after clearing the dict and wiping and recreating the root, runs a
report loop that calls `os.listdir` on each just-deleted folder: with one
backup present it raises `FileNotFoundError`, so the operation never
returns the prior identifiers (and the list it meant to report holds folder
names, `self.backups.values()`, not identifier keys).  The wipe itself does
happen: the resulting state has an empty catalog and an empty root. -/
theorem c9_delete_all_report_crashes :
    (∀ (b : List (Nat × Name)) (s : RootState),
      do_delete_all false b s = ⟨b, s, none, []⟩)
    ∧ do_delete_all true [(20230101120000, "Backup_20230101_120000".toList)]
        ⟨[("Backup_20230101_120000".toList,
           .dir [(ceforDb, .file "data".toList)])]⟩ =
      ⟨[], ⟨[]⟩, some .fileNotFound, []⟩ :=
  ⟨fun _ _ => rfl, rfl⟩

theorem splitDash_cons (c : Char) (x : List Char) :
    splitDash (c :: x) =
      if c = '-' then [] :: splitDash x
      else
        match splitDash x with
        | h :: t => (c :: h) :: t
        | [] => [[c]] := rfl

theorem splitDash_exists_cons (s : List Char) :
    ∃ h t, splitDash s = h :: t := by
  induction s with
  | nil => exact ⟨[], [], rfl⟩
  | cons c x ih =>
    obtain ⟨h, t, hht⟩ := ih
    by_cases hc : c = '-'
    · exact ⟨[], splitDash x, by simp [splitDash_cons, hc]⟩
    · exact ⟨c :: h, t, by simp [splitDash_cons, hc, hht]⟩

theorem splitDash_dashfree_append (a : List Char) (rest : List Char)
    (ha : a.count '-' = 0) (h : List Char) (t : List (List Char))
    (hrest : splitDash rest = h :: t) :
    splitDash (a ++ rest) = (a ++ h) :: t := by
  induction a with
  | nil => simpa using hrest
  | cons c a' ih =>
    have hc : c ≠ '-' := by
      intro hc
      subst hc
      simp [List.count_cons] at ha
    have ha' : a'.count '-' = 0 := by
      rw [List.count_cons] at ha
      omega
    simp [splitDash_cons, hc, ih ha']

theorem splitDash_of_dashfree (b : List Char) (hb : b.count '-' = 0) :
    splitDash b = [b] := by
  have := splitDash_dashfree_append b [] hb [] [] rfl
  simpa using this

theorem pyIsdigit_count_dash (a : List Char) (h : pyIsdigit a = true) :
    a.count '-' = 0 := by
  rw [List.count_eq_zero]
  intro hm
  have h2 : ∀ x ∈ a, isDig x = true := by
    simp [pyIsdigit] at h
    exact h.2
  have hd := h2 '-' hm
  simp [isDig] at hd

/-- Claim C10 (`parse_backup_numbers`): a stripped digit string `n` yields
exactly `[n]`; a stripped input of shape `a-b` with digit strings on both
sides yields the consecutive run from `a` to `b` inclusive — in particular
the empty selection whenever `a > b`; and any other input with at most one
`'-'` (not a digit string, and not a digit-digit split at its dash) yields
the empty list. -/
theorem c10_parse_backup_numbers :
    (∀ s : Name, pyIsdigit (pyStrip s) = true →
        parse_backup_numbers s = .ok [digitsToNat (pyStrip s)])
    ∧ (∀ (s : Name) (a b : List Char), pyStrip s = a ++ '-' :: b →
        pyIsdigit a = true → pyIsdigit b = true →
        parse_backup_numbers s =
          .ok (List.range' (digitsToNat a) (digitsToNat b + 1 - digitsToNat a)))
    ∧ (∀ (s : Name) (a b : List Char), pyStrip s = a ++ '-' :: b →
        pyIsdigit a = true → pyIsdigit b = true →
        digitsToNat b < digitsToNat a → parse_backup_numbers s = .ok [])
    ∧ (∀ s : Name, pyIsdigit (pyStrip s) = false → (pyStrip s).count '-' = 0 →
        parse_backup_numbers s = .ok [])
    ∧ (∀ (s : Name) (a b : List Char), pyStrip s = a ++ '-' :: b →
        a.count '-' = 0 → b.count '-' = 0 →
        ¬(pyIsdigit a = true ∧ pyIsdigit b = true) →
        parse_backup_numbers s = .ok []) := by
  have hdigfalse : ∀ (a b : List Char), pyIsdigit (a ++ '-' :: b) = false := by
    intro a b
    simp [pyIsdigit, isDig]
  have hcont : ∀ (a b : List Char), (a ++ '-' :: b).contains '-' = true := by
    intro a b
    simp
  have hsplit : ∀ (a b : List Char), a.count '-' = 0 → b.count '-' = 0 →
      splitDash (a ++ '-' :: b) = [a, b] := by
    intro a b ha hb
    have h1 : splitDash ('-' :: b) = [] :: splitDash b := by
      simp [splitDash_cons]
    rw [splitDash_of_dashfree b hb] at h1
    have := splitDash_dashfree_append a ('-' :: b) ha [] [b] h1
    simpa using this
  refine ⟨?_, ?_, ?_, ?_, ?_⟩
  · intro s h
    simp [parse_backup_numbers, h]
  · intro s a b hs ha hb
    have hcd := hsplit a b (pyIsdigit_count_dash a ha) (pyIsdigit_count_dash b hb)
    simp [parse_backup_numbers, hs, hdigfalse, hcont, hcd, ha, hb]
  · intro s a b hs ha hb hlt
    have hcd := hsplit a b (pyIsdigit_count_dash a ha) (pyIsdigit_count_dash b hb)
    have hz : digitsToNat b + 1 - digitsToNat a = 0 := by omega
    simp [parse_backup_numbers, hs, hdigfalse, hcont, hcd, ha, hb, hz]
  · intro s h hc
    have hnm : ¬ ('-' ∈ pyStrip s) := by
      rw [← List.count_eq_zero]
      exact hc
    simp [parse_backup_numbers, h, hnm]
  · intro s a b hs ha hb hnd
    have hcd := hsplit a b ha hb
    have hor : pyIsdigit a = false ∨ pyIsdigit b = false := by
      by_cases h1 : pyIsdigit a = true
      · by_cases h2 : pyIsdigit b = true
        · exact absurd ⟨h1, h2⟩ hnd
        · exact Or.inr (by simpa using h2)
      · exact Or.inl (by simpa using h1)
    rcases hor with h1 | h1 <;>
      simp [parse_backup_numbers, hs, hdigfalse, hcont, hcd, h1]

/-- Witness for C10: the theorem applied at the concrete selectors
`"5"`, `"3-5"`, `"5-3"`, `"abc"` and `"a-5"`. -/
theorem c10_parse_backup_numbers_witness :
    parse_backup_numbers "5".toList = .ok [digitsToNat (pyStrip "5".toList)]
    ∧ parse_backup_numbers "3-5".toList =
        .ok (List.range' (digitsToNat "3".toList)
          (digitsToNat "5".toList + 1 - digitsToNat "3".toList))
    ∧ parse_backup_numbers "5-3".toList = .ok []
    ∧ parse_backup_numbers "abc".toList = .ok []
    ∧ parse_backup_numbers "a-5".toList = .ok [] :=
  ⟨c10_parse_backup_numbers.1 "5".toList (by decide),
   c10_parse_backup_numbers.2.1 "3-5".toList "3".toList "5".toList
     (by decide) (by decide) (by decide),
   c10_parse_backup_numbers.2.2.1 "5-3".toList "5".toList "3".toList
     (by decide) (by decide) (by decide) (by decide),
   c10_parse_backup_numbers.2.2.2.1 "abc".toList (by decide) (by decide),
   c10_parse_backup_numbers.2.2.2.2 "a-5".toList "a".toList "5".toList
     (by decide) (by decide) (by decide) (by decide)⟩

theorem lookupE_append (l m : List (Name × Entry)) (k : Name) :
    lookupE (l ++ m) k =
      match lookupE l k with
      | some v => some v
      | none => lookupE m k := by
  induction l with
  | nil => simp [lookupE]
  | cons p t ih =>
    obtain ⟨a, b⟩ := p
    by_cases h : a = k <;> simp [lookupE, h, ih]

/-- `some entry` is not a directory (absent entries and plain files pass). -/
def notDirAt (l : List (Name × Entry)) (k : Name) : Bool :=
  match lookupE l k with
  | some (.dir _) => false
  | _ => true

/-- The quarantine slot is in a good shape: absent, or a directory none of
whose live-named children is itself a directory. -/
def safeSlotGood (s : RootState) : Bool :=
  match lookupE s.entries safeName with
  | some (.dir ch) => liveFiles.all (fun f => notDirAt ch f)
  | some (.file _) => false
  | none => true

theorem moveOne_ok (s : RootState) (f : Name) (hf : f ≠ safeName)
    (ch : List (Name × Entry))
    (hsd : lookupE s.entries safeName = some (.dir ch))
    (hlf : notDirAt s.entries f = true) (hdf : notDirAt ch f = true) :
    ∃ (s' : RootState) (ch' : List (Name × Entry)), moveOne s f = .ok s'
      ∧ lookupE s'.entries safeName = some (.dir ch')
      ∧ lookupE s'.entries f = none
      ∧ (∀ c, lookupE s.entries f = some (.file c) →
          lookupE ch' f = some (.file c))
      ∧ (∀ g, g ≠ f → g ≠ safeName →
          lookupE s'.entries g = lookupE s.entries g)
      ∧ (∀ g, g ≠ f → lookupE ch' g = lookupE ch g) := by
  cases hef : lookupE s.entries f with
  | none =>
    refine ⟨s, ch, ?_, hsd, hef, ?_, fun g _ _ => rfl, fun g _ => rfl⟩
    · simp [moveOne, hef]
    · intro c hc
      exact Option.noConfusion hc
  | some e =>
    cases e with
    | dir sub => simp [notDirAt, hef] at hlf
    | file c =>
      cases hcf : lookupE ch f with
      | some e2 =>
        cases e2 with
        | dir sub2 => simp [notDirAt, hcf] at hdf
        | file d =>
          refine ⟨⟨setE (eraseE s.entries f) safeName
              (.dir (setE ch f (.file c)))⟩, setE ch f (.file c), ?_,
            lookupE_setE_self _ _ _, ?_, ?_, ?_, ?_⟩
          · simp [moveOne, hef, hsd, hcf]
          · rw [lookupE_setE_ne _ _ _ _ hf]
            exact lookupE_eraseE_self _ _
          · intro c' hc'
            have hcc : c = c' := by
              injection hc' with h2
              injection h2
            subst hcc
            exact lookupE_setE_self _ _ _
          · intro g hgf hgs
            rw [lookupE_setE_ne _ _ _ _ hgs]
            exact lookupE_eraseE_ne _ _ _ hgf
          · intro g hgf
            exact lookupE_setE_ne _ _ _ _ hgf
      | none =>
        refine ⟨⟨setE (eraseE s.entries f) safeName
            (.dir (setE ch f (.file c)))⟩, setE ch f (.file c), ?_,
          lookupE_setE_self _ _ _, ?_, ?_, ?_, ?_⟩
        · simp [moveOne, hef, hsd, hcf]
        · rw [lookupE_setE_ne _ _ _ _ hf]
          exact lookupE_eraseE_self _ _
        · intro c' hc'
          have hcc : c = c' := by
            injection hc' with h2
            injection h2
          subst hcc
          exact lookupE_setE_self _ _ _
        · intro g hgf hgs
          rw [lookupE_setE_ne _ _ _ _ hgs]
          exact lookupE_eraseE_ne _ _ _ hgf
        · intro g hgf
          exact lookupE_setE_ne _ _ _ _ hgf

theorem ensureSafe_ok (s : RootState) (hsafe : safeSlotGood s = true) :
    ∃ (s0 : RootState) (ch0 : List (Name × Entry)),
      ensureSafe s = .ok s0
      ∧ lookupE s0.entries safeName = some (.dir ch0)
      ∧ (∀ g, g ≠ safeName → lookupE s0.entries g = lookupE s.entries g)
      ∧ liveFiles.all (fun f => notDirAt ch0 f) = true := by
  cases hsl : lookupE s.entries safeName with
  | none =>
    refine ⟨⟨s.entries ++ [(safeName, .dir [])]⟩, [], ?_, ?_, ?_, by decide⟩
    · simp [ensureSafe, hsl]
    · rw [lookupE_append, hsl]
      simp [lookupE]
    · intro g hg
      rw [lookupE_append]
      cases hgl : lookupE s.entries g with
      | none =>
        have hns : ¬ safeName = g := fun h => hg h.symm
        simp [lookupE, hns]
      | some v => rfl
  | some e =>
    cases e with
    | file c => simp [safeSlotGood, hsl] at hsafe
    | dir ch =>
      refine ⟨s, ch, ?_, hsl, fun g _ => rfl, ?_⟩
      · simp [ensureSafe, hsl]
      · simpa [safeSlotGood, hsl] using hsafe

/-- Claim C3: after the staging step of `do_restore`, for every live file
among the three database file names that existed (as a plain file) at the
live location, the live location no longer contains it and the quarantine
directory `safe` (created if absent) holds that very file content — the
files are moved, not copied.  Hypotheses: the live slots hold no
directories and the quarantine slot is in a good shape (in particular, not
an existing plain file, which would make `os.makedirs` raise). -/
theorem c3_stage_moves_live_files (s : RootState)
    (hsafe : safeSlotGood s = true)
    (hlive : liveFiles.all (fun f => notDirAt s.entries f) = true) :
    ∃ (s' : RootState) (ch : List (Name × Entry)), stage s = .ok s'
      ∧ lookupE s'.entries safeName = some (.dir ch)
      ∧ ∀ f ∈ liveFiles,
          lookupE s'.entries f = none
          ∧ ∀ c, lookupE s.entries f = some (.file c) →
              lookupE ch f = some (.file c) := by
  have hn1 : ceforDb ≠ safeName := by decide
  have hn2 : ceforShm ≠ safeName := by decide
  have hn3 : ceforWal ≠ safeName := by decide
  have hn4 : ceforShm ≠ ceforDb := by decide
  have hn5 : ceforWal ≠ ceforDb := by decide
  have hn6 : ceforWal ≠ ceforShm := by decide
  have hm1' : ceforDb ∈ liveFiles := by decide
  have hm2' : ceforShm ∈ liveFiles := by decide
  have hm3' : ceforWal ∈ liveFiles := by decide
  have hlive1 := List.all_eq_true.mp hlive ceforDb hm1'
  have hlive2 := List.all_eq_true.mp hlive ceforShm hm2'
  have hlive3 := List.all_eq_true.mp hlive ceforWal hm3'
  obtain ⟨s0, ch0, hs0, hsd0, hframe0, hch0⟩ := ensureSafe_ok s hsafe
  have hch0f := fun f hm => List.all_eq_true.mp hch0 f hm
  obtain ⟨s1, ch1, hmv1, hsd1, hf1, hc1, hfr1, hcg1⟩ :=
    moveOne_ok s0 ceforDb hn1 ch0 hsd0
      (by rw [notDirAt, hframe0 ceforDb hn1]
          rw [notDirAt] at hlive1
          exact hlive1)
      (hch0f ceforDb hm1')
  obtain ⟨s2, ch2, hmv2, hsd2, hf2, hc2, hfr2, hcg2⟩ :=
    moveOne_ok s1 ceforShm hn2 ch1 hsd1
      (by rw [notDirAt, hfr1 ceforShm hn4 hn2, hframe0 ceforShm hn2]
          rw [notDirAt] at hlive2
          exact hlive2)
      (by rw [notDirAt, hcg1 ceforShm hn4]
          have := hch0f ceforShm hm2'
          rwa [notDirAt] at this)
  obtain ⟨s3, ch3, hmv3, hsd3, hf3, hc3, hfr3, hcg3⟩ :=
    moveOne_ok s2 ceforWal hn3 ch2 hsd2
      (by rw [notDirAt, hfr2 ceforWal hn6 hn3, hfr1 ceforWal hn5 hn3,
            hframe0 ceforWal hn3]
          rw [notDirAt] at hlive3
          exact hlive3)
      (by rw [notDirAt, hcg2 ceforWal hn6, hcg1 ceforWal hn5]
          have := hch0f ceforWal hm3'
          rwa [notDirAt] at this)
  refine ⟨s3, ch3, ?_, hsd3, ?_⟩
  · simp [stage, hs0, hmv1, hmv2, hmv3]
  · intro f hf
    have hf3' : f = ceforDb ∨ f = ceforShm ∨ f = ceforWal := by
      simpa [liveFiles] using hf
    rcases hf3' with h | h | h
    · subst h
      refine ⟨?_, ?_⟩
      · rw [hfr3 ceforDb (Ne.symm hn5) hn1, hfr2 ceforDb (Ne.symm hn4) hn1]
        exact hf1
      · intro c hc
        rw [hcg3 ceforDb (Ne.symm hn5), hcg2 ceforDb (Ne.symm hn4)]
        exact hc1 c (by rw [hframe0 ceforDb hn1]; exact hc)
    · subst h
      refine ⟨?_, ?_⟩
      · rw [hfr3 ceforShm (Ne.symm hn6) hn2]
        exact hf2
      · intro c hc
        rw [hcg3 ceforShm (Ne.symm hn6)]
        exact hc2 c
          (by rw [hfr1 ceforShm hn4 hn2, hframe0 ceforShm hn2]; exact hc)
    · subst h
      refine ⟨hf3, ?_⟩
      intro c hc
      exact hc3 c
        (by rw [hfr2 ceforWal hn6 hn3, hfr1 ceforWal hn5 hn3,
              hframe0 ceforWal hn3]
            exact hc)

/-- Witness for C3: the theorem applied to a live set holding all three
database files and no pre-existing quarantine directory. -/
theorem c3_stage_moves_live_files_witness :
    ∃ (s' : RootState) (ch : List (Name × Entry)),
      stage ⟨[(ceforDb, .file "a".toList), (ceforShm, .file "b".toList),
        (ceforWal, .file "c".toList)]⟩ = .ok s'
      ∧ lookupE s'.entries safeName = some (.dir ch)
      ∧ ∀ f ∈ liveFiles,
          lookupE s'.entries f = none
          ∧ ∀ c, lookupE [(ceforDb, Entry.file "a".toList),
              (ceforShm, Entry.file "b".toList),
              (ceforWal, Entry.file "c".toList)] f = some (.file c) →
              lookupE ch f = some (.file c) :=
  c3_stage_moves_live_files ⟨[(ceforDb, .file "a".toList),
    (ceforShm, .file "b".toList), (ceforWal, .file "c".toList)]⟩
    (by decide) (by decide)


theorem copyOne_shape (folder : Name) (s : RootState) (g : Name)
    (s' : RootState) (r : Option Name)
    (h : copyOne folder s g = .ok (s', r)) :
    (r = some g ∧ s' = s) ∨
    (r = none ∧ ∃ c, s' = ⟨setE s.entries g (.file c)⟩) := by
  unfold copyOne at h
  split at h
  · simp at h
    exact Or.inl ⟨h.2.symm, h.1.symm⟩
  · split at h
    · split at h
      · simp at h
        rename_i c heq
        exact Or.inr ⟨h.2.symm, c, h.1.symm⟩
      · simp at h
      · simp at h
    · simp at h
    · simp at h


theorem restoreCopyPhase_shape (s : RootState) (folder : Name)
    (s' : RootState) (skipped : List Name)
    (h : restoreCopyPhase s folder = .ok (s', skipped)) :
    ∃ (s1 s2 : RootState) (r1 r2 r3 : Option Name),
      copyOne folder s ceforDb = .ok (s1, r1)
      ∧ copyOne folder s1 ceforShm = .ok (s2, r2)
      ∧ copyOne folder s2 ceforWal = .ok (s', r3)
      ∧ skipped = r1.toList ++ r2.toList ++ r3.toList := by
  unfold restoreCopyPhase at h
  cases h1 : copyOne folder s ceforDb with
  | error e1 =>
    rw [h1] at h
    simp at h
  | ok p1 =>
    obtain ⟨s1, r1⟩ := p1
    rw [h1] at h
    dsimp only at h
    cases h2 : copyOne folder s1 ceforShm with
    | error e2 =>
      rw [h2] at h
      simp at h
    | ok p2 =>
      obtain ⟨s2, r2⟩ := p2
      rw [h2] at h
      dsimp only at h
      cases h3 : copyOne folder s2 ceforWal with
      | error e3 =>
        rw [h3] at h
        simp at h
      | ok p3 =>
        obtain ⟨s3, r3⟩ := p3
        rw [h3] at h
        simp at h
        refine ⟨s1, s2, r1, r2, r3, rfl, h2, ?_, ?_⟩
        · rw [← h.1]
          exact h3
        · rw [← h.2, List.append_assoc]

theorem copyOne_frame (folder : Name) (s : RootState) (g : Name)
    (s' : RootState) (r : Option Name)
    (h : copyOne folder s g = .ok (s', r)) :
    ∀ x, x ≠ g → lookupE s'.entries x = lookupE s.entries x := by
  intro x hx
  rcases copyOne_shape folder s g s' r h with ⟨_, hs⟩ | ⟨_, c, hs⟩
  · rw [hs]
  · rw [hs]
    exact lookupE_setE_ne _ _ _ _ hx

theorem copyOne_skip (folder : Name) (s : RootState) (g : Name) (e : Entry)
    (h : lookupE s.entries g = some e) :
    copyOne folder s g = .ok (s, some g) := by
  unfold copyOne
  rw [h]

/-- Claim C4 (amended part, proved): during the copy step of `do_restore`,
any of the three database file names whose live destination already exists
is skipped — the destination entry is left exactly as it was, an error line
naming it is emitted, and the quarantine slot is untouched (no rollback of
the staging step); and whenever the copy loop completes without a Python
exception, line 357 reports overall success (`true`) regardless of the
skipped files. -/
theorem c4_copy_skips_without_overwrite (s : RootState) (folder f : Name)
    (e : Entry) (hmem : f ∈ liveFiles)
    (hdst : lookupE s.entries f = some e) :
    ∀ (s' : RootState) (skipped : List Name),
      restoreCopyPhase s folder = .ok (s', skipped) →
        lookupE s'.entries f = some e
        ∧ f ∈ skipped
        ∧ lookupE s'.entries safeName = lookupE s.entries safeName
        ∧ restoreCopyReport s folder = .ok (s', skipped, true) := by
  have hn1 : ceforDb ≠ safeName := by decide
  have hn2 : ceforShm ≠ safeName := by decide
  have hn3 : ceforWal ≠ safeName := by decide
  have hn4 : ceforShm ≠ ceforDb := by decide
  have hn5 : ceforWal ≠ ceforDb := by decide
  have hn6 : ceforWal ≠ ceforShm := by decide
  intro s' skipped hphase
  have hreport : restoreCopyReport s folder = .ok (s', skipped, true) := by
    unfold restoreCopyReport
    rw [hphase]
  obtain ⟨s1, s2, r1, r2, r3, h1, h2, h3, hsk⟩ :=
    restoreCopyPhase_shape s folder s' skipped hphase
  have hfr1 := copyOne_frame folder s ceforDb s1 r1 h1
  have hfr2 := copyOne_frame folder s1 ceforShm s2 r2 h2
  have hfr3 := copyOne_frame folder s2 ceforWal s' r3 h3
  have hsafe : lookupE s'.entries safeName = lookupE s.entries safeName := by
    rw [hfr3 safeName (Ne.symm hn3), hfr2 safeName (Ne.symm hn2),
      hfr1 safeName (Ne.symm hn1)]
  have hf3 : f = ceforDb ∨ f = ceforShm ∨ f = ceforWal := by
    simpa [liveFiles] using hmem
  rcases hf3 with h | h | h
  · subst h
    have hskip := copyOne_skip folder s ceforDb e hdst
    have hinj : s1 = s ∧ r1 = some ceforDb := by
      have := h1.symm.trans hskip
      simp at this
      exact this
    refine ⟨?_, ?_, hsafe, hreport⟩
    · rw [hfr3 ceforDb (Ne.symm hn5), hfr2 ceforDb (Ne.symm hn4), hinj.1]
      exact hdst
    · rw [hsk, hinj.2]
      simp
  · subst h
    have hd1 : lookupE s1.entries ceforShm = some e := by
      rw [hfr1 ceforShm hn4]
      exact hdst
    have hskip := copyOne_skip folder s1 ceforShm e hd1
    have hinj : s2 = s1 ∧ r2 = some ceforShm := by
      have := h2.symm.trans hskip
      simp at this
      exact this
    refine ⟨?_, ?_, hsafe, hreport⟩
    · rw [hfr3 ceforShm (Ne.symm hn6), hinj.1]
      exact hd1
    · rw [hsk, hinj.2]
      simp
  · subst h
    have hd2 : lookupE s2.entries ceforWal = some e := by
      rw [hfr2 ceforWal hn6, hfr1 ceforWal hn5]
      exact hdst
    have hskip := copyOne_skip folder s2 ceforWal e hd2
    have hinj : s' = s2 ∧ r3 = some ceforWal := by
      have := h3.symm.trans hskip
      simp at this
      exact this
    refine ⟨?_, ?_, hsafe, hreport⟩
    · rw [hinj.1]
      exact hd2
    · rw [hsk, hinj.2]
      simp

/-- Counterexample for claim C4: the claim states that restore "reports
overall success only if every file chosen from the snapshot was actually
placed".  Run the copy step from a state in which the live `Cefor.db`
exists again (the situation the spec itself describes: a file created by
some other process between staging and copy) while the chosen snapshot
holds all three files: the primary is skipped with an error — its snapshot
content `"s1"` is never placed and the live file still holds `"intruder"` —
yet the operation still ends with the line-357 success report (`true`). -/
theorem c4_success_reported_despite_skip :
    restoreCopyReport
      ⟨[(safeName, .dir [(ceforDb, .file "old".toList)]),
        ("Backup_20230101_120000".toList,
          .dir [(ceforDb, .file "s1".toList), (ceforShm, .file "s2".toList),
                (ceforWal, .file "s3".toList)]),
        (ceforDb, .file "intruder".toList)]⟩
      "Backup_20230101_120000".toList =
      .ok (⟨[(safeName, .dir [(ceforDb, .file "old".toList)]),
            ("Backup_20230101_120000".toList,
              .dir [(ceforDb, .file "s1".toList), (ceforShm, .file "s2".toList),
                    (ceforWal, .file "s3".toList)]),
            (ceforDb, .file "intruder".toList),
            (ceforShm, .file "s2".toList),
            (ceforWal, .file "s3".toList)]⟩, [ceforDb], true)
    ∧ lookupE [(safeName, Entry.dir [(ceforDb, Entry.file "old".toList)]),
        ("Backup_20230101_120000".toList,
          Entry.dir [(ceforDb, Entry.file "s1".toList),
                (ceforShm, Entry.file "s2".toList),
                (ceforWal, Entry.file "s3".toList)]),
        (ceforDb, Entry.file "intruder".toList),
        (ceforShm, Entry.file "s2".toList),
        (ceforWal, Entry.file "s3".toList)] ceforDb =
      some (.file "intruder".toList)
    ∧ "intruder".toList ≠ "s1".toList :=
  ⟨rfl, rfl, by decide⟩

/-- Witness for C4: the amended theorem applied at the counterexample
state, file `Cefor.db`, destination entry `"intruder"`. -/
theorem c4_copy_skips_without_overwrite_witness :
    lookupE [(safeName, Entry.dir [(ceforDb, Entry.file "old".toList)]),
        ("Backup_20230101_120000".toList,
          Entry.dir [(ceforDb, Entry.file "s1".toList),
                (ceforShm, Entry.file "s2".toList),
                (ceforWal, Entry.file "s3".toList)]),
        (ceforDb, Entry.file "intruder".toList),
        (ceforShm, Entry.file "s2".toList),
        (ceforWal, Entry.file "s3".toList)] ceforDb =
      some (.file "intruder".toList)
    ∧ ceforDb ∈ [ceforDb]
    ∧ lookupE [(safeName, Entry.dir [(ceforDb, Entry.file "old".toList)]),
        ("Backup_20230101_120000".toList,
          Entry.dir [(ceforDb, Entry.file "s1".toList),
                (ceforShm, Entry.file "s2".toList),
                (ceforWal, Entry.file "s3".toList)]),
        (ceforDb, Entry.file "intruder".toList),
        (ceforShm, Entry.file "s2".toList),
        (ceforWal, Entry.file "s3".toList)] safeName =
      lookupE [(safeName, Entry.dir [(ceforDb, Entry.file "old".toList)]),
        ("Backup_20230101_120000".toList,
          Entry.dir [(ceforDb, Entry.file "s1".toList),
                (ceforShm, Entry.file "s2".toList),
                (ceforWal, Entry.file "s3".toList)]),
        (ceforDb, Entry.file "intruder".toList)] safeName
    ∧ restoreCopyReport
        ⟨[(safeName, .dir [(ceforDb, .file "old".toList)]),
          ("Backup_20230101_120000".toList,
            .dir [(ceforDb, .file "s1".toList), (ceforShm, .file "s2".toList),
                  (ceforWal, .file "s3".toList)]),
          (ceforDb, .file "intruder".toList)]⟩
        "Backup_20230101_120000".toList =
        .ok (⟨[(safeName, .dir [(ceforDb, .file "old".toList)]),
              ("Backup_20230101_120000".toList,
                .dir [(ceforDb, .file "s1".toList),
                      (ceforShm, .file "s2".toList),
                      (ceforWal, .file "s3".toList)]),
              (ceforDb, .file "intruder".toList),
              (ceforShm, .file "s2".toList),
              (ceforWal, .file "s3".toList)]⟩, [ceforDb], true) :=
  c4_copy_skips_without_overwrite
    ⟨[(safeName, .dir [(ceforDb, .file "old".toList)]),
      ("Backup_20230101_120000".toList,
        .dir [(ceforDb, .file "s1".toList), (ceforShm, .file "s2".toList),
              (ceforWal, .file "s3".toList)]),
      (ceforDb, .file "intruder".toList)]⟩
    "Backup_20230101_120000".toList ceforDb (.file "intruder".toList)
    (by decide) rfl
    ⟨[(safeName, .dir [(ceforDb, .file "old".toList)]),
      ("Backup_20230101_120000".toList,
        .dir [(ceforDb, .file "s1".toList), (ceforShm, .file "s2".toList),
              (ceforWal, .file "s3".toList)]),
      (ceforDb, .file "intruder".toList),
      (ceforShm, .file "s2".toList),
      (ceforWal, .file "s3".toList)]⟩ [ceforDb] rfl

/-- Counterexample for claim C5: the claim demands `MalformedName` whenever
the remainder after `'Backup_'` is not the *exact* `YYYYMMDD_HHMMSS`
template ("no partial matches").  But Python's strptime field patterns also
accept under-width fields: `'2020101_120000'` (a 7-digit date part) parses
as 2020-10-01 12:00:00, so a directory named `Backup_2020101_120000`
containing `Cefor.db` validates Ok even though its name does not match the
canonical fifteen-character template.  In addition, the `NotFound` and
`MissingRequiredFile` kinds are both raised as the same Python class
`FileNotFoundError` (distinguishable only by message), and validation of a
*relative* path does not report any of the four kinds at all — it raises
`AttributeError` (`cls.BACKUP_PATH` is not defined). -/
theorem c5_lenient_template_accepted :
    check_errors ⟨[("Backup_2020101_120000".toList,
        .dir [(ceforDb, .file "x".toList)])]⟩ true
        "Backup_2020101_120000".toList = .ok ()
    ∧ specExactTemplate "2020101_120000".toList = false
    ∧ validate_datetime_format "2020101_120000".toList = true
    ∧ CheckErr.pyClass .notFound = CheckErr.pyClass .missingRequired
    ∧ check_errors ⟨[]⟩ false "Backup_20230101_120000".toList =
        .error .attrBackupPath :=
  ⟨rfl, by decide, by decide, rfl, rfl⟩

/-- Claim C5 (amended, proved): for an absolute path, `check_errors`
returns Ok exactly when the path exists, is a directory, its name carries
the `'Backup_'` marker with the part after the *last* marker occurrence
accepted by Python's (lenient) strptime `%Y%m%d_%H%M%S` parse, and the
directory contains `Cefor.db`; the error kinds characterize exactly:
`notFound` iff the path does not exist, `notADirectory` iff it exists as a
plain file, `malformedPrefix` iff a directory's name lacks the marker,
`malformedDatetime` iff the marker is present but the datetime part fails
the lenient parse, `missingRequired` iff only `Cefor.db` is absent; for a
relative path the result is always the `AttributeError` of line 165. -/
theorem c5_check_errors_kinds (s : RootState) (name : Name) :
    (check_errors s true name = .ok () ↔
      ∃ ch, lookupE s.entries name = some (.dir ch)
        ∧ startsWithBackup name = true
        ∧ validate_datetime_format (lastPiece name) = true
        ∧ (lookupE ch ceforDb).isSome = true)
    ∧ (check_errors s true name = .error .notFound ↔
        lookupE s.entries name = none)
    ∧ (check_errors s true name = .error .notADirectory ↔
        ∃ c, lookupE s.entries name = some (.file c))
    ∧ (check_errors s true name = .error .malformedPrefix ↔
        ∃ ch, lookupE s.entries name = some (.dir ch)
          ∧ startsWithBackup name = false)
    ∧ (check_errors s true name = .error .malformedDatetime ↔
        ∃ ch, lookupE s.entries name = some (.dir ch)
          ∧ startsWithBackup name = true
          ∧ validate_datetime_format (lastPiece name) = false)
    ∧ (check_errors s true name = .error .missingRequired ↔
        ∃ ch, lookupE s.entries name = some (.dir ch)
          ∧ startsWithBackup name = true
          ∧ validate_datetime_format (lastPiece name) = true
          ∧ lookupE ch ceforDb = none)
    ∧ check_errors s false name = .error .attrBackupPath := by
  cases hl : lookupE s.entries name with
  | none => simp [check_errors, hl]
  | some e =>
    cases e with
    | file c => simp [check_errors, hl]
    | dir ch =>
      by_cases h1 : startsWithBackup name = true
      · by_cases h2 : validate_datetime_format (lastPiece name) = true
        · cases hc : lookupE ch ceforDb with
          | none => simp [check_errors, hl, h1, h2, hc]
          | some v => simp [check_errors, hl, h1, h2, hc]
        · simp [check_errors, hl, h1, h2]
      · simp [check_errors, hl, h1]

theorem digitChar_toNat (k : Nat) (hk : k ≤ 9) :
    (Char.ofNat (48 + k)).toNat = 48 + k := by
  interval_cases k <;> decide

theorem runAlts_min_canonical {α : Type} (v : Nat) (hv : v ≤ 59)
    (r : List Char) (k : Nat → List Char → Option α) (x : α)
    (hk : k v r = some x) : runAlts altsMin (pad2 v ++ r) k = some x := by
  have h1 : (Char.ofNat (48 + v / 10)).toNat = 48 + v / 10 :=
    digitChar_toNat _ (by omega)
  have h2 : (Char.ofNat (48 + v % 10)).toNat = 48 + v % 10 :=
    digitChar_toNat _ (by omega)
  have hc1 : chRange 48 53 (Char.ofNat (48 + v / 10)) = true := by
    simp [chRange, h1]
    omega
  have hc2 : isDig (Char.ofNat (48 + v % 10)) = true := by
    simp [isDig, h2]
    omega
  have hval : 10 * digVal (Char.ofNat (48 + v / 10)) +
      digVal (Char.ofNat (48 + v % 10)) = v := by
    simp [digVal, h1, h2]
    omega
  simp [altsMin, runAlts, pad2, alt2, hc1, hc2, hval, hk]

theorem runAlts_sec_canonical {α : Type} (v : Nat) (hv : v ≤ 59)
    (r : List Char) (k : Nat → List Char → Option α) (x : α)
    (hk : k v r = some x) : runAlts altsS (pad2 v ++ r) k = some x := by
  have h1 : (Char.ofNat (48 + v / 10)).toNat = 48 + v / 10 :=
    digitChar_toNat _ (by omega)
  have h2 : (Char.ofNat (48 + v % 10)).toNat = 48 + v % 10 :=
    digitChar_toNat _ (by omega)
  have hf1 : chEq 54 (Char.ofNat (48 + v / 10)) = false := by
    simp [chEq, h1]
    omega
  have hc1 : chRange 48 53 (Char.ofNat (48 + v / 10)) = true := by
    simp [chRange, h1]
    omega
  have hc2 : isDig (Char.ofNat (48 + v % 10)) = true := by
    simp [isDig, h2]
    omega
  have hval : 10 * digVal (Char.ofNat (48 + v / 10)) +
      digVal (Char.ofNat (48 + v % 10)) = v := by
    simp [digVal, h1, h2]
    omega
  simp [altsS, runAlts, pad2, alt2, hf1, hc1, hc2, hval, hk]

theorem runAlts_hour_canonical {α : Type} (v : Nat) (hv : v ≤ 23)
    (r : List Char) (k : Nat → List Char → Option α) (x : α)
    (hk : k v r = some x) : runAlts altsH (pad2 v ++ r) k = some x := by
  have h1 : (Char.ofNat (48 + v / 10)).toNat = 48 + v / 10 :=
    digitChar_toNat _ (by omega)
  have h2 : (Char.ofNat (48 + v % 10)).toNat = 48 + v % 10 :=
    digitChar_toNat _ (by omega)
  have hval : 10 * digVal (Char.ofNat (48 + v / 10)) +
      digVal (Char.ofNat (48 + v % 10)) = v := by
    simp [digVal, h1, h2]
    omega
  rcases Nat.lt_or_ge v 20 with hv20 | hv20
  · have hf1 : chEq 50 (Char.ofNat (48 + v / 10)) = false := by
      simp [chEq, h1]
      omega
    have hc1 : chRange 48 49 (Char.ofNat (48 + v / 10)) = true := by
      simp [chRange, h1]
      omega
    have hc2 : isDig (Char.ofNat (48 + v % 10)) = true := by
      simp [isDig, h2]
      omega
    simp [altsH, runAlts, pad2, alt2, hf1, hc1, hc2, hval, hk]
  · have hc1 : chEq 50 (Char.ofNat (48 + v / 10)) = true := by
      simp [chEq, h1]
      omega
    have hc2 : chRange 48 51 (Char.ofNat (48 + v % 10)) = true := by
      simp [chRange, h2]
      omega
    simp [altsH, runAlts, pad2, alt2, hc1, hc2, hval, hk]

theorem runAlts_month_canonical {α : Type} (v : Nat) (hv1 : 1 ≤ v)
    (hv : v ≤ 12) (r : List Char) (k : Nat → List Char → Option α) (x : α)
    (hk : k v r = some x) : runAlts altsM (pad2 v ++ r) k = some x := by
  have h1 : (Char.ofNat (48 + v / 10)).toNat = 48 + v / 10 :=
    digitChar_toNat _ (by omega)
  have h2 : (Char.ofNat (48 + v % 10)).toNat = 48 + v % 10 :=
    digitChar_toNat _ (by omega)
  have hval : 10 * digVal (Char.ofNat (48 + v / 10)) +
      digVal (Char.ofNat (48 + v % 10)) = v := by
    simp [digVal, h1, h2]
    omega
  rcases Nat.lt_or_ge v 10 with hv10 | hv10
  · have hf1 : chEq 49 (Char.ofNat (48 + v / 10)) = false := by
      simp [chEq, h1]
      omega
    have hc1 : chEq 48 (Char.ofNat (48 + v / 10)) = true := by
      simp [chEq, h1]
      omega
    have hc2 : chRange 49 57 (Char.ofNat (48 + v % 10)) = true := by
      simp [chRange, h2]
      omega
    simp [altsM, runAlts, pad2, alt2, hf1, hc1, hc2, hval, hk]
  · have hc1 : chEq 49 (Char.ofNat (48 + v / 10)) = true := by
      simp [chEq, h1]
      omega
    have hc2 : chRange 48 50 (Char.ofNat (48 + v % 10)) = true := by
      simp [chRange, h2]
      omega
    simp [altsM, runAlts, pad2, alt2, hc1, hc2, hval, hk]

theorem runAlts_day_canonical {α : Type} (v : Nat) (hv1 : 1 ≤ v)
    (hv : v ≤ 31) (r : List Char) (k : Nat → List Char → Option α) (x : α)
    (hk : k v r = some x) : runAlts altsD (pad2 v ++ r) k = some x := by
  have h1 : (Char.ofNat (48 + v / 10)).toNat = 48 + v / 10 :=
    digitChar_toNat _ (by omega)
  have h2 : (Char.ofNat (48 + v % 10)).toNat = 48 + v % 10 :=
    digitChar_toNat _ (by omega)
  have hval : 10 * digVal (Char.ofNat (48 + v / 10)) +
      digVal (Char.ofNat (48 + v % 10)) = v := by
    simp [digVal, h1, h2]
    omega
  rcases Nat.lt_or_ge v 10 with hv10 | hv10
  · have hf1 : chEq 51 (Char.ofNat (48 + v / 10)) = false := by
      simp [chEq, h1]
      omega
    have hf2 : chRange 49 50 (Char.ofNat (48 + v / 10)) = false := by
      simp [chRange, h1]
      omega
    have hc1 : chEq 48 (Char.ofNat (48 + v / 10)) = true := by
      simp [chEq, h1]
      omega
    have hc2 : chRange 49 57 (Char.ofNat (48 + v % 10)) = true := by
      simp [chRange, h2]
      omega
    simp [altsD, runAlts, pad2, alt2, hf1, hf2, hc1, hc2, hval, hk]
  · rcases Nat.lt_or_ge v 30 with hv30 | hv30
    · have hf1 : chEq 51 (Char.ofNat (48 + v / 10)) = false := by
        simp [chEq, h1]
        omega
      have hc1 : chRange 49 50 (Char.ofNat (48 + v / 10)) = true := by
        simp [chRange, h1]
        omega
      have hc2 : isDig (Char.ofNat (48 + v % 10)) = true := by
        simp [isDig, h2]
        omega
      simp [altsD, runAlts, pad2, alt2, hf1, hc1, hc2, hval, hk]
    · have hc1 : chEq 51 (Char.ofNat (48 + v / 10)) = true := by
        simp [chEq, h1]
        omega
      have hc2 : chRange 48 49 (Char.ofNat (48 + v % 10)) = true := by
        simp [chRange, h2]
        omega
      simp [altsD, runAlts, pad2, alt2, hc1, hc2, hval, hk]

theorem altY_pad4 (y : Nat) (hy : y ≤ 9999) (r : List Char) :
    altY (pad4 y ++ r) = some (y, r) := by
  have h1 : (Char.ofNat (48 + y / 1000)).toNat = 48 + y / 1000 :=
    digitChar_toNat _ (by omega)
  have h2 : (Char.ofNat (48 + y / 100 % 10)).toNat = 48 + y / 100 % 10 :=
    digitChar_toNat _ (by omega)
  have h3 : (Char.ofNat (48 + y / 10 % 10)).toNat = 48 + y / 10 % 10 :=
    digitChar_toNat _ (by omega)
  have h4 : (Char.ofNat (48 + y % 10)).toNat = 48 + y % 10 :=
    digitChar_toNat _ (by omega)
  have hd1 : isDig (Char.ofNat (48 + y / 1000)) = true := by
    simp [isDig, h1]
    omega
  have hd2 : isDig (Char.ofNat (48 + y / 100 % 10)) = true := by
    simp [isDig, h2]
    omega
  have hd3 : isDig (Char.ofNat (48 + y / 10 % 10)) = true := by
    simp [isDig, h3]
    omega
  have hd4 : isDig (Char.ofNat (48 + y % 10)) = true := by
    simp [isDig, h4]
    omega
  have hval : 1000 * digVal (Char.ofNat (48 + y / 1000)) +
      100 * digVal (Char.ofNat (48 + y / 100 % 10)) +
      10 * digVal (Char.ofNat (48 + y / 10 % 10)) +
      digVal (Char.ofNat (48 + y % 10)) = y := by
    simp [digVal, h1, h2, h3, h4]
    omega
  simp [altY, pad4, hd1, hd2, hd3, hd4, hval]

theorem matchTemplate_canonical (y mo d hh mi ss : Nat) (r : List Char)
    (hy : y ≤ 9999) (hmo1 : 1 ≤ mo) (hmo : mo ≤ 12) (hd1 : 1 ≤ d)
    (hd : d ≤ 31) (hhh : hh ≤ 23) (hmi : mi ≤ 59) (hss : ss ≤ 59) :
    matchTemplate (pad4 y ++ (pad2 mo ++ (pad2 d ++ ('_' ::
        (pad2 hh ++ (pad2 mi ++ (pad2 ss ++ r))))))) =
      some (⟨y, mo, d, hh, mi, ss⟩, r) := by
  unfold matchTemplate
  rw [altY_pad4 y hy]
  refine runAlts_month_canonical mo hmo1 hmo _ _ _ ?_
  refine runAlts_day_canonical d hd1 hd _ _ _ ?_
  show matchLit '_' ('_' :: (pad2 hh ++ (pad2 mi ++ (pad2 ss ++ r)))) _ = _
  rw [matchLit]
  simp only [if_pos rfl]
  refine runAlts_hour_canonical hh hhh _ _ _ ?_
  refine runAlts_min_canonical mi hmi _ _ _ ?_
  exact runAlts_sec_canonical ss hss _ _ _ rfl

theorem restAfterMarker_none (s : List Char) (h : ∀ c ∈ s, c.toNat ≠ 66) :
    restAfterMarker s = none := by
  induction s with
  | nil => rfl
  | cons c t ih =>
    have hcB : ('B' == c) = false := by
      have hc := h c (by simp)
      cases hbe : ('B' == c) with
      | false => rfl
      | true =>
        have : 'B' = c := by
          exact eq_of_beq hbe
        rw [← this] at hc
        exact absurd rfl hc
    have hpf : backupMarker.isPrefixOf (c :: t) = false := by
      have hbm : backupMarker = 'B' :: "ackup_".toList := rfl
      rw [hbm]
      simp [List.isPrefixOf]
      intro he
      rw [he] at hcB
      simp at hcB
    simp [restAfterMarker, hpf]
    exact ih (fun c2 hc2 => h c2 (by simp [hc2]))

theorem pad2_mem_toNat (v : Nat) (hv : v ≤ 99) (c : Char) (hc : c ∈ pad2 v) :
    48 ≤ c.toNat ∧ c.toNat ≤ 57 := by
  simp [pad2] at hc
  rcases hc with rfl | rfl
  · rw [digitChar_toNat _ (by omega)]
    omega
  · rw [digitChar_toNat _ (by omega)]
    omega

theorem pad4_mem_toNat (v : Nat) (hv : v ≤ 9999) (c : Char) (hc : c ∈ pad4 v) :
    48 ≤ c.toNat ∧ c.toNat ≤ 57 := by
  simp [pad4] at hc
  rcases hc with rfl | rfl | rfl | rfl
  · rw [digitChar_toNat _ (by omega)]
    omega
  · rw [digitChar_toNat _ (by omega)]
    omega
  · rw [digitChar_toNat _ (by omega)]
    omega
  · rw [digitChar_toNat _ (by omega)]
    omega

/-- Claim C7: the round trip `decode (encode t) = t` holds for every
representable second-resolution timestamp `t` (the `datetime`-representable
stamps, i.e. those passing `stampOk`): the spec-modelled encoder renders
`Backup_YYYYMMDD_HHMMSS` with zero-padded fields, and the code's decoding
path (marker check, `split('Backup_')[-1]`, lenient strptime) recovers
exactly the original fields. -/
theorem c7_decode_encode (t : Stamp) (h : stampOk t = true) :
    decodeName (encodeStamp t) = some t := by
  obtain ⟨y, mo, d, hh, mi, ss⟩ := t
  have hb : 1 ≤ y ∧ y ≤ 9999 ∧ 1 ≤ mo ∧ mo ≤ 12 ∧ 1 ≤ d ∧
      d ≤ daysInMonth y mo ∧ hh ≤ 23 ∧ mi ≤ 59 ∧ ss ≤ 59 := by
    simpa [stampOk] using h
  have hdm : daysInMonth y mo ≤ 31 := by
    unfold daysInMonth
    by_cases h2 : mo = 2
    · by_cases hl : leapYear y = true <;> simp [h2, hl]
    · by_cases h30 : mo = 4 ∨ mo = 6 ∨ mo = 9 ∨ mo = 11 <;> simp [h2, h30]
  have hd31 : d ≤ 31 := le_trans hb.2.2.2.2.2.1 hdm
  have hform : encodeStamp ⟨y, mo, d, hh, mi, ss⟩ =
      backupMarker ++ (pad4 y ++ (pad2 mo ++ (pad2 d ++ ('_' ::
        (pad2 hh ++ (pad2 mi ++ (pad2 ss ++ []))))))) := by
    simp [encodeStamp]
  have htailB : ∀ c ∈ pad4 y ++ (pad2 mo ++ (pad2 d ++ ('_' ::
      (pad2 hh ++ (pad2 mi ++ (pad2 ss ++ ([] : List Char))))))),
      c.toNat ≠ 66 := by
    intro c hc
    simp only [List.mem_append, List.mem_cons, List.not_mem_nil,
      or_false] at hc
    rcases hc with hc | hc | hc | hc | hc | hc | hc
    · have := pad4_mem_toNat y hb.2.1 c hc
      omega
    · have := pad2_mem_toNat mo (by omega) c hc
      omega
    · have := pad2_mem_toNat d (by omega) c hc
      omega
    · subst hc
      decide
    · have := pad2_mem_toNat hh (by omega) c hc
      omega
    · have := pad2_mem_toNat mi (by omega) c hc
      omega
    · have := pad2_mem_toNat ss (by omega) c hc
      omega
  have hpre : startsWithBackup (encodeStamp ⟨y, mo, d, hh, mi, ss⟩) = true := by
    rw [hform, startsWithBackup]
    rw [List.isPrefixOf_iff_prefix]
    exact List.prefix_append _ _
  have hlast : lastPiece (encodeStamp ⟨y, mo, d, hh, mi, ss⟩) =
      pad4 y ++ (pad2 mo ++ (pad2 d ++ ('_' ::
        (pad2 hh ++ (pad2 mi ++ (pad2 ss ++ [])))))) := by
    rw [hform]
    have hlen : (backupMarker ++ (pad4 y ++ (pad2 mo ++ (pad2 d ++ ('_' ::
        (pad2 hh ++ (pad2 mi ++ (pad2 ss ++ ([] : List Char))))))))).length =
        22 := by
      simp [backupMarker, pad4, pad2]
    rw [lastPiece, hlen]
    have hstep1 : restAfterMarker (backupMarker ++ (pad4 y ++ (pad2 mo ++
        (pad2 d ++ ('_' :: (pad2 hh ++ (pad2 mi ++
          (pad2 ss ++ ([] : List Char))))))))) =
        some (pad4 y ++ (pad2 mo ++ (pad2 d ++ ('_' ::
          (pad2 hh ++ (pad2 mi ++ (pad2 ss ++ []))))))) := by
      have hbm : backupMarker = 'B' :: "ackup_".toList := rfl
      rw [hbm]
      have hpf : List.isPrefixOf ('B' :: "ackup_".toList)
          ('B' :: ("ackup_".toList ++ (pad4 y ++ (pad2 mo ++ (pad2 d ++
            ('_' :: (pad2 hh ++ (pad2 mi ++ (pad2 ss ++ [])))))))) ) =
          true := by
        rw [List.isPrefixOf_iff_prefix]
        have : 'B' :: ("ackup_".toList ++ (pad4 y ++ (pad2 mo ++ (pad2 d ++
            ('_' :: (pad2 hh ++ (pad2 mi ++ (pad2 ss ++ [])))))))) =
            ('B' :: "ackup_".toList) ++ (pad4 y ++ (pad2 mo ++ (pad2 d ++
            ('_' :: (pad2 hh ++ (pad2 mi ++ (pad2 ss ++ []))))))) := rfl
        rw [this]
        exact List.prefix_append _ _
      simp only [restAfterMarker, hpf, if_true]
      rfl
    have h22 : lastPieceFuel 22 (backupMarker ++ (pad4 y ++ (pad2 mo ++
        (pad2 d ++ ('_' :: (pad2 hh ++ (pad2 mi ++
          (pad2 ss ++ ([] : List Char))))))))) =
        match restAfterMarker (backupMarker ++ (pad4 y ++ (pad2 mo ++
          (pad2 d ++ ('_' :: (pad2 hh ++ (pad2 mi ++
            (pad2 ss ++ ([] : List Char))))))))) with
        | some r => lastPieceFuel 21 r
        | none => backupMarker ++ (pad4 y ++ (pad2 mo ++ (pad2 d ++ ('_' ::
            (pad2 hh ++ (pad2 mi ++ (pad2 ss ++ ([] : List Char)))))))) := rfl
    rw [h22, hstep1]
    dsimp only
    have h21 : lastPieceFuel 21 (pad4 y ++ (pad2 mo ++ (pad2 d ++ ('_' ::
        (pad2 hh ++ (pad2 mi ++ (pad2 ss ++ ([] : List Char)))))))) =
        match restAfterMarker (pad4 y ++ (pad2 mo ++ (pad2 d ++ ('_' ::
          (pad2 hh ++ (pad2 mi ++ (pad2 ss ++ ([] : List Char)))))))) with
        | some r => lastPieceFuel 20 r
        | none => pad4 y ++ (pad2 mo ++ (pad2 d ++ ('_' ::
            (pad2 hh ++ (pad2 mi ++ (pad2 ss ++ ([] : List Char))))))) := rfl
    rw [h21, restAfterMarker_none _ htailB]
  rw [decodeName, hpre, if_pos rfl, hlast]
  rw [strptimeYmdHMS, matchTemplate_canonical y mo d hh mi ss []
    hb.2.1 hb.2.2.1 hb.2.2.2.1 hb.2.2.2.2.1 hd31 hb.2.2.2.2.2.2.1
    hb.2.2.2.2.2.2.2.1 hb.2.2.2.2.2.2.2.2]
  simp [h]

/-- Witness for C7: the round trip evaluated at the concrete timestamp
2023-12-31  23:59:59. -/
theorem c7_decode_encode_witness :
    stampOk ⟨2023, 12, 31, 23, 59, 59⟩ = true
    ∧ decodeName (encodeStamp ⟨2023, 12, 31, 23, 59, 59⟩) =
        some ⟨2023, 12, 31, 23, 59, 59⟩ :=
  ⟨by decide, c7_decode_encode ⟨2023, 12, 31, 23, 59, 59⟩ (by decide)⟩

theorem numberFrom_map_fst {α : Type} (l : List α) (n : Nat) :
    (numberFrom n l).map Prod.fst = List.range' n l.length := by
  induction l generalizing n with
  | nil => simp [numberFrom]
  | cons a t ih => simp [numberFrom, List.range', ih]

theorem numberFrom_mem_snd {α : Type} (l : List α) (n : Nat) (q : Nat × α)
    (h : q ∈ numberFrom n l) : q.2 ∈ l := by
  induction l generalizing n with
  | nil => simp [numberFrom] at h
  | cons a t ih =>
    simp [numberFrom] at h
    rcases h with rfl | h
    · simp
    · exact List.mem_cons_of_mem _ (ih (n + 1) h)

theorem numberFrom_pairwise {α : Type} (R : α → α → Prop) (l : List α)
    (n : Nat) (h : List.Pairwise R l) :
    List.Pairwise (fun p q => R p.2 q.2) (numberFrom n l) := by
  induction l generalizing n with
  | nil => exact List.Pairwise.nil
  | cons a t ih =>
    rcases h with _ | ⟨ha, ht⟩
    refine List.Pairwise.cons ?_ (ih (n + 1) ht)
    intro q hq
    exact ha q.2 (numberFrom_mem_snd t (n + 1) q hq)

theorem numberFrom_getElem {α : Type} (l : List α) (n i : Nat) :
    (numberFrom n l)[i]? = (l[i]?).map (fun a => (n + i, a)) := by
  induction l generalizing n i with
  | nil => simp [numberFrom]
  | cons a t ih =>
    cases i with
    | zero => simp [numberFrom]
    | succ j =>
      have harith : n + 1 + j = n + (j + 1) := by omega
      simp only [numberFrom, List.getElem?_cons_succ]
      rw [ih, harith]

theorem rows_ordinals (b : List (Nat × Name))
    (hnd : (b.map Prod.fst).Nodup) :
    (displayRows b).map Prod.fst = List.range' 1 b.length
    ∧ List.Pairwise (fun r r' => r.2.1 < r'.2.1) (displayRows b) := by
  have hperm : List.Perm (sortedItems b) b := List.perm_insertionSort keyLe b
  have hlen : (sortedItems b).length = b.length := hperm.length_eq
  constructor
  · rw [displayRows, numberFrom_map_fst, hlen]
  · have hsorted : List.Sorted keyLe (sortedItems b) :=
      List.sorted_insertionSort keyLe b
    have hnd2 : ((sortedItems b).map Prod.fst).Nodup :=
      ((hperm.map Prod.fst).nodup_iff).mpr hnd
    have hne : List.Pairwise (fun p q : Nat × Name => p.1 ≠ q.1)
        (sortedItems b) := List.pairwise_map.mp hnd2
    have hlt : List.Pairwise (fun p q : Nat × Name => p.1 < q.1)
        (sortedItems b) := by
      have hand := List.Pairwise.and hsorted hne
      exact hand.imp (fun h => lt_of_le_of_ne h.1 h.2)
    exact numberFrom_pairwise _ _ _ hlt

theorem byOrdinal_rows (b : List (Nat × Name)) (n : Nat) (h1 : 1 ≤ n)
    (h2 : n ≤ b.length) :
    byOrdinal b n = ((displayRows b)[n - 1]?).map (fun r => r.2.1) := by
  have hperm : List.Perm (sortedItems b) b := List.perm_insertionSort keyLe b
  have hsorted : List.Sorted keyLe (sortedItems b) :=
    List.sorted_insertionSort keyLe b
  have hkeys : sortedKeys b = (sortedItems b).map Prod.fst := by
    apply List.eq_of_perm_of_sorted (r := (· ≤ · : Nat → Nat → Prop))
    · exact (List.perm_insertionSort _ _).trans (hperm.map Prod.fst).symm
    · exact List.sorted_insertionSort _ _
    · exact List.pairwise_map.mpr hsorted
  rw [byOrdinal, if_pos ⟨h1, h2⟩, hkeys]
  rw [displayRows, numberFrom_getElem, List.getElem?_map, Option.map_map]
  rfl

/-- Claim C8: in every catalog listing, ordinals are assigned 1-based in
strictly ascending order of identifier and are contiguous from 1 to the
count; ordinal lookup (`sorted(self.backups.keys())[n-1]`) resolves ordinal
`n` to the n-th record of that ascending order; and after deleting any key,
re-listing recomputes the ordinals of the remaining set, again contiguous
from 1 with strictly ascending identifiers.  The hypothesis is the dict
invariant: keys are pairwise distinct. -/
theorem c8_ordinals_ascending_contiguous (b : List (Nat × Name))
    (hnd : (b.map Prod.fst).Nodup) :
    (displayRows b).map Prod.fst = List.range' 1 b.length
    ∧ List.Pairwise (fun r r' => r.2.1 < r'.2.1) (displayRows b)
    ∧ (∀ n, 1 ≤ n → n ≤ b.length →
        byOrdinal b n = ((displayRows b)[n - 1]?).map (fun r => r.2.1))
    ∧ ∀ k, (displayRows (eraseKey b k)).map Prod.fst =
          List.range' 1 (eraseKey b k).length
        ∧ List.Pairwise (fun r r' => r.2.1 < r'.2.1)
            (displayRows (eraseKey b k)) := by
  have hmain := rows_ordinals b hnd
  refine ⟨hmain.1, hmain.2,
    fun n hn1 hn2 => byOrdinal_rows b n hn1 hn2, fun k => ?_⟩
  have hsub : List.Sublist (eraseKey b k) b := List.filter_sublist b
  have hnd2 : ((eraseKey b k).map Prod.fst).Nodup :=
    List.Nodup.sublist (hsub.map Prod.fst) hnd
  exact rows_ordinals _ hnd2

/-- Witness for C8: the theorem applied to a concrete two-entry catalog
with out-of-order insertion. -/
theorem c8_ordinals_ascending_contiguous_witness :
    (displayRows [(20230102090000, "Backup_20230102_090000".toList),
        (20230101120000, "Backup_20230101_120000".toList)]).map Prod.fst =
      List.range' 1 ([(20230102090000, "Backup_20230102_090000".toList),
        (20230101120000, "Backup_20230101_120000".toList)]).length
    ∧ List.Pairwise (fun r r' => r.2.1 < r'.2.1)
        (displayRows [(20230102090000, "Backup_20230102_090000".toList),
          (20230101120000, "Backup_20230101_120000".toList)])
    ∧ (∀ n, 1 ≤ n →
        n ≤ ([(20230102090000, "Backup_20230102_090000".toList),
          (20230101120000, "Backup_20230101_120000".toList)]).length →
        byOrdinal [(20230102090000, "Backup_20230102_090000".toList),
          (20230101120000, "Backup_20230101_120000".toList)] n =
          ((displayRows [(20230102090000, "Backup_20230102_090000".toList),
            (20230101120000, "Backup_20230101_120000".toList)])[n - 1]?).map
            (fun r => r.2.1))
    ∧ ∀ k, (displayRows (eraseKey
          [(20230102090000, "Backup_20230102_090000".toList),
           (20230101120000, "Backup_20230101_120000".toList)] k)).map
          Prod.fst =
        List.range' 1 (eraseKey
          [(20230102090000, "Backup_20230102_090000".toList),
           (20230101120000, "Backup_20230101_120000".toList)] k).length
      ∧ List.Pairwise (fun r r' => r.2.1 < r'.2.1)
          (displayRows (eraseKey
            [(20230102090000, "Backup_20230102_090000".toList),
             (20230101120000, "Backup_20230101_120000".toList)] k)) :=
  c8_ordinals_ascending_contiguous
    [(20230102090000, "Backup_20230102_090000".toList),
     (20230101120000, "Backup_20230101_120000".toList)] (by decide)
